import Mathlib

/-!
Shallow embedding of the diffcast backend pipeline orchestrator
(`src/backend/services/pipeline_service.py` and the collaborator services it
drives: `media_generation_service.py`, `gemini_video_service.py`,
`firebase_service.py`, `firebase_schema.py`).

Conventions of the embedding:
* Python exceptions become `Except String` values carrying `str(exc)`.
* External collaborators (LLM calls, browser recorder, ffmpeg, Firestore,
  storage uploads) are oracles: their outcomes are fields of an environment
  record, and the orchestrator is a pure function of that environment.
* Firestore writes are recorded as an explicit event trace; the `videos`
  collection of the scheduler is an association list.
* Python floats that are only compared against integer bounds are modelled
  as `ℚ`; durations that are threaded through the trace opaquely are `Nat`.
-/

/- ===================== media_generation_service.py ===================== -/

/-- Word alternatives of `JARGON_PATTERN` in `media_generation_service.py`. -/
def JARGON_WORDS : List String :=
  ["api", "class", "function", "refactor", "endpoint", "backend", "frontend",
   "schema", "regex", "cli", "sql", "database", "cache", "repository"]

/-- Python `str.lower()`, modelled character-wise (the inputs of interest are
ASCII). -/
def py_lower (s : String) : String := String.mk (s.data.map Char.toLower)

/-- Python `str.strip()`: drop leading and trailing whitespace. -/
def py_strip (s : String) : String :=
  String.mk (((s.data.dropWhile Char.isWhitespace).reverse.dropWhile
    Char.isWhitespace).reverse)

/-- Regex word character (`\w`): ASCII letters, digits and underscore (the
inputs of interest are ASCII). -/
def isWordChar (c : Char) : Bool := c.isAlphanum || c = '_'

/-- The maximal word-character runs of a character list (`acc` is the
reversed run currently being read). -/
def word_runs : List Char → List Char → List String
  | [], acc => [String.mk acc.reverse]
  | c :: cs, acc =>
    if isWordChar c then word_runs cs (c :: acc)
    else String.mk acc.reverse :: word_runs cs []

/-- Model of `_contains_jargon`: the pattern `\b(...)\b` with `re.IGNORECASE`
matches exactly when some maximal word-character run of the lower-cased text
equals one of the jargon words. -/
def contains_jargon (s : String) : Bool :=
  (word_runs (py_lower s).data []).any fun w => JARGON_WORDS.contains w

/-- Model of `_truncate` in `media_generation_service.py` (`text[:limit]` is
`String.mk (text.data.take limit)`). -/
def truncate (text : String) (limit : Nat) : String :=
  if text.length ≤ limit then text else String.mk (text.data.take limit) ++ "..."

/-- One entry of the `scenes` list of the script payload handed to
`validate_scene_script`.  `duration_sec = none` models a `duration_sec` value
on which Python `float()` raises (missing or non-numeric); `some q` models a
value that coerces to the number `q`. -/
structure SceneIn where
  on_screen_text : String
  narration_seed : String
  duration_sec : Option ℚ
deriving Repr, DecidableEq

/-- The script payload handed to `validate_scene_script`.  `scenes = none`
models a payload whose `"scenes"` entry is not a list.  (`title` and
`feature_summary` model `str(payload.get(..., ""))`.) -/
structure ScriptIn where
  title : String
  feature_summary : String
  scenes : Option (List SceneIn)
deriving Repr, DecidableEq

/-- A normalized scene as returned by `validate_scene_script`. -/
structure SceneOut where
  on_screen_text : String
  narration_seed : String
  duration_sec : ℚ
deriving Repr, DecidableEq

/-- The normalized script returned by `validate_scene_script`.  The Python
code rounds `total_duration_sec` to two decimals on output; the exact rational
total is carried here (the rounding plays no role in validation). -/
structure ScriptOut where
  title : String
  feature_summary : String
  scenes : List SceneOut
  total_duration_sec : ℚ
deriving Repr, DecidableEq

/-- The per-scene loop of `validate_scene_script`: validates scenes in order
(`index` is the running index, `total` the accumulated duration), returning
the normalized scenes together with the final accumulated total duration. -/
def validate_scenes : List SceneIn → Nat → ℚ → Except String (List SceneOut × ℚ)
  | [], _, total => .ok ([], total)
  | scene :: rest, index, total =>
    let t := py_strip scene.on_screen_text
    let n := py_strip scene.narration_seed
    if t = "" then
      .error ("scene[" ++ toString index ++ "].on_screen_text is required")
    else if n = "" then
      .error ("scene[" ++ toString index ++ "].narration_seed is required")
    else if contains_jargon t || contains_jargon n then
      .error ("scene[" ++ toString index ++ "] contains technical jargon")
    else
      match scene.duration_sec with
      | none => .error ("scene[" ++ toString index ++ "].duration_sec must be numeric")
      | some duration =>
        if duration < 2 ∨ duration > 20 then
          .error ("scene[" ++ toString index ++ "].duration_sec must be between 2 and 20")
        else
          match validate_scenes rest (index + 1) (total + duration) with
          | .error e => .error e
          | .ok (outs, tot) =>
            .ok ({ on_screen_text := truncate t 240,
                   narration_seed := truncate n 260,
                   duration_sec := duration } :: outs, tot)

/-- Model of `validate_scene_script` in `media_generation_service.py`,
with the checks in source order: required `title`/`feature_summary`, `scenes`
a non-empty list of at most 8 entries, no jargon in `title`/`summary`, then
the per-scene loop, then the 120-second total bound. -/
def validate_scene_script (payload : ScriptIn) : Except String ScriptOut :=
  let title := py_strip payload.title
  let summary := py_strip payload.feature_summary
  if title = "" then .error "script.title is required"
  else if summary = "" then .error "script.feature_summary is required"
  else
    match payload.scenes with
    | none => .error "script.scenes must be a non-empty list"
    | some scenes =>
      if scenes.isEmpty then .error "script.scenes must be a non-empty list"
      else if scenes.length > 8 then .error "script.scenes supports at most 8 scenes"
      else if contains_jargon title || contains_jargon summary then
        .error "script contains technical jargon"
      else
        match validate_scenes scenes 0 0 with
        | .error e => .error e
        | .ok (outs, total) =>
          if total > 120 then .error "total video duration must be at most 120 seconds"
          else .ok { title := truncate title 120,
                     feature_summary := truncate summary 260,
                     scenes := outs,
                     total_duration_sec := total }

/-- A single scene violates the constraints actually enforced by the
per-scene loop of `validate_scene_script`. -/
def sceneViolation (scene : SceneIn) : Bool :=
  py_strip scene.on_screen_text = "" || py_strip scene.narration_seed = "" ||
  contains_jargon (py_strip scene.on_screen_text) ||
  contains_jargon (py_strip scene.narration_seed) ||
  (match scene.duration_sec with
   | none => true
   | some d => decide (d < 2) || decide (d > 20))

/-- A script payload violates the constraints actually enforced by
`validate_scene_script` (note: the scene-count lower bound enforced by the
code is 1, not 3). -/
def scriptViolation (p : ScriptIn) : Bool :=
  py_strip p.title = "" || py_strip p.feature_summary = "" ||
  contains_jargon (py_strip p.title) || contains_jargon (py_strip p.feature_summary) ||
  (match p.scenes with
   | none => true
   | some scenes =>
     scenes.isEmpty || decide (scenes.length > 8) ||
     scenes.any sceneViolation ||
     decide ((scenes.map fun s => s.duration_sec.getD 0).sum > 120))

/-- Model of `parse_target_languages`: trim, lower-case and de-duplicate the
requested codes (preserving first occurrence order), defaulting to `["en"]`.
`env_langs` stands for the already-split `PIPELINE_LANGUAGES` environment
value used when `languages is None`. -/
def parse_target_languages (env_langs : List String) (languages : Option (List String)) :
    List String :=
  let raw := languages.getD env_langs
  let normalized := raw.foldl (fun acc item =>
    let code := py_lower (py_strip item)
    if code ≠ "" ∧ ¬ acc.contains code then acc ++ [code] else acc) []
  if normalized = [] then ["en"] else normalized

/- ===================== gemini_video_service.py ===================== -/

/-- `_VEO_ALLOWED_DURATIONS = (4, 6, 8)`. -/
def VEO_ALLOWED_DURATIONS : List Int := [4, 6, 8]

/-- Python `min(xs, key=key)`: the first element of `xs` attaining the
minimal key (the fold replaces the current best only on a strictly smaller
key). -/
def pyMinBy (key : Int → Nat) : List Int → Option Int
  | [] => none
  | d :: ds => some (ds.foldl (fun best x => if key x < key best then x else best) d)

/-- Model of `_snap_duration`:
`min(_VEO_ALLOWED_DURATIONS, key=lambda d: abs(d - requested))`. -/
def snap_duration (requested : Int) : Int :=
  (pyMinBy (fun d => (d - requested).natAbs) VEO_ALLOWED_DURATIONS).getD 0

/-- Model of `int(os.environ.get("PIPELINE_VEO_TIMEOUT_SEC", "300"))`:
the configured overall Veo poll timeout, defaulting to 300 seconds. -/
def veo_timeout_sec (env : Option Nat) : Nat := env.getD 300

/-- The poll loop of `generate_veo_clip`.  `done i` is the remote operation's
`done` flag as observed by the i-th poll; `poll_sec` is fixed at `10.0` in the
source, so after `i` sleeps the elapsed time is `10 * i` seconds.  The loop
raises `GeminiVideoError` (an `Except.error`) as soon as the elapsed time
exceeds `timeout_sec`; on success it returns the index of the poll that
observed completion. -/
def poll_veo_operation (done : Nat → Bool) (timeout_sec : Nat) (i : Nat) :
    Except String Nat :=
  if done i then .ok i
  else if 10 * i > timeout_sec then
    .error ("Veo generation timed out after " ++ toString timeout_sec ++ "s")
  else
    poll_veo_operation done timeout_sec (i + 1)
termination_by timeout_sec + 10 - 10 * i
decreasing_by
  rename_i h2
  simp only [not_lt] at h2
  omega

/- ===================== firebase_schema.py / firebase_service.py ===================== -/

/-- `commit_id` from `firebase_schema.py`:
`repo_full_name.replace("/", "_") + "_" + sha[:7]`. -/
def commit_id (repo_full_name : String) (sha : String) : String :=
  String.mk (repo_full_name.data.map fun c => if c = '/' then '_' else c) ++ "_" ++
    String.mk (sha.data.take 7)

/-- `video_id` from `firebase_schema.py` (same as `commit_id`). -/
def video_id (repo_full_name : String) (sha : String) : String :=
  commit_id repo_full_name sha

/-- `build_video_doc_id` from `firebase_service.py`. -/
def build_video_doc_id (repo_full_name : String) (sha : String) : String :=
  video_id repo_full_name sha

/- ===================== scheduler state (enqueue_commit_pipeline) ===================== -/

/-- The fields of a commit document that `enqueue_commit_pipeline` reads. -/
structure CommitDoc where
  id : String
  repo_full_name : String
  sha : String
deriving Repr, DecidableEq

/-- The modelled fields of a pipeline video (Job) document.  Identity fields
(`video_id`, `commit_id`, `sha`, `sha_short`) duplicate the document key and
timestamps are not modelled; the remaining `_base_video_doc` artifact fields
are all `None` initially and are represented by `goal`. -/
structure JobDoc where
  status : String
  stage : String
  error : Option String
  languages_requested : List String
  goal : Option String
deriving Repr, DecidableEq

/-- `_base_video_doc`: the initial job state written at enqueue time
(`status="queued"`, `stage="goal"`, artifacts and tracks cleared). -/
def base_video_doc (languages_requested : List String) : JobDoc :=
  { status := "queued", stage := "goal", error := none,
    languages_requested := languages_requested, goal := none }

/-- `upsert_video_doc` (Firestore `set(..., merge=True)`): the payload
contains every modelled field, so the merge replaces the stored document. -/
def upsert_video_doc (videos : List (String × JobDoc)) (doc_id : String)
    (doc : JobDoc) : List (String × JobDoc) :=
  if videos.any fun kv => kv.1 = doc_id then
    videos.map fun kv => if kv.1 = doc_id then (doc_id, doc) else kv
  else
    videos ++ [(doc_id, doc)]

/-- `get_video`: read of the `videos` collection. -/
def get_video (videos : List (String × JobDoc)) (doc_id : String) : Option JobDoc :=
  (videos.find? fun kv => kv.1 = doc_id).map fun kv => kv.2

/-- The process-wide scheduler state: the `videos` Firestore collection, the
`_FUTURES` in-flight registry (`video_doc_id ↦ future.done()`), and the log of
`_EXECUTOR.submit` calls (job id together with the submitted language list). -/
structure SchedState where
  videos : List (String × JobDoc)
  futures : List (String × Bool)
  submitted : List (String × List String)
deriving Repr, DecidableEq

/-- Registry update `_FUTURES[video_doc_id] = future` (a fresh future is not
done). -/
def set_future (futures : List (String × Bool)) (doc_id : String) (d : Bool) :
    List (String × Bool) :=
  if futures.any fun kv => kv.1 = doc_id then
    futures.map fun kv => if kv.1 = doc_id then (doc_id, d) else kv
  else
    futures ++ [(doc_id, d)]

/-- Registry read `_FUTURES.get(video_doc_id)`. -/
def get_future (futures : List (String × Bool)) (doc_id : String) : Option Bool :=
  (futures.find? fun kv => kv.1 = doc_id).map fun kv => kv.2

/-- The result dictionary returned by `enqueue_commit_pipeline`. -/
structure EnqueueResult where
  queued : Bool
  skipped : Bool
  reason : Option String
  video_id : String
  status : String
  languages_requested : Option (List String)
  stage : Option String
deriving Repr, DecidableEq

/-- Model of `enqueue_commit_pipeline` for a commit id that resolves to a
commit document (when `get_commit_by_id` returns `None` the Python function
raises `ValueError` before touching any modelled state; see
`enqueue_commit_pipeline_checked`).  Mirrors the source order: parse
languages, compute the doc id, the existing-status guard, the unconditional
upsert of the initial job document, then (under `_LOCK`) the in-flight
registry guard and the submission. -/
def enqueue_commit_pipeline (st : SchedState) (commit_doc : CommitDoc)
    (env_langs : List String) (languages : Option (List String)) (force : Bool) :
    EnqueueResult × SchedState :=
  let languages_requested := parse_target_languages env_langs languages
  let video_doc_id := build_video_doc_id commit_doc.repo_full_name commit_doc.sha
  let existing := get_video st.videos video_doc_id
  let blocked : Bool := match existing with
    | some d => (d.status == "running" || d.status == "completed") && !force
    | none => false
  if blocked then
    ({ queued := false, skipped := true, reason := some "already_running_or_completed",
       video_id := video_doc_id, status := (existing.map fun d => d.status).getD "",
       languages_requested := none, stage := none }, st)
  else
    let videos1 := upsert_video_doc st.videos video_doc_id (base_video_doc languages_requested)
    match get_future st.futures video_doc_id with
    | some d =>
      if ¬ d ∧ ¬ force then
        ({ queued := false, skipped := true, reason := some "already_queued",
           video_id := video_doc_id, status := "running",
           languages_requested := none, stage := none },
         { st with videos := videos1 })
      else
        ({ queued := true, skipped := false, reason := none,
           video_id := video_doc_id, status := "queued",
           languages_requested := some languages_requested, stage := some "goal" },
         { videos := videos1,
           futures := set_future st.futures video_doc_id false,
           submitted := st.submitted ++ [(video_doc_id, languages_requested)] })
    | none =>
      ({ queued := true, skipped := false, reason := none,
         video_id := video_doc_id, status := "queued",
         languages_requested := some languages_requested, stage := some "goal" },
       { videos := videos1,
         futures := set_future st.futures video_doc_id false,
         submitted := st.submitted ++ [(video_doc_id, languages_requested)] })

/-- The full entry point including the `ValueError` raised when the commit id
does not resolve. -/
def enqueue_commit_pipeline_checked (st : SchedState) (commit_doc : Option CommitDoc)
    (env_langs : List String) (languages : Option (List String)) (force : Bool) :
    Except String (EnqueueResult × SchedState) :=
  match commit_doc with
  | none => .error "Commit not found"
  | some c => .ok (enqueue_commit_pipeline st c env_langs languages force)

/- ===================== pipeline run (_run_unified_pipeline) ===================== -/

/-- `PIPELINE_STAGES` from `pipeline_service.py` (the spec calls the `veo`
stage `clip-generate`). -/
def PIPELINE_STAGES : List String :=
  ["goal", "demo", "script", "snapshots", "veo", "stitch", "voice", "captions",
   "finalize", "done"]

/-- Position of a stage name in the fixed order, `none` for names outside it
(the `error` terminal state). -/
def stageIdx (s : String) : Option Nat := PIPELINE_STAGES.findIdx? fun t => t = s

/-- Outcome of one `generate_veo_clip` + `normalize_video` attempt inside the
veo loop.  `geminiError` is a `GeminiVideoError` (caught by the loop, which
continues with the next clip); `fatal` is any other exception (propagates and
fails the job). -/
inductive VeoOutcome where
  | ok
  | geminiError
  | fatal (msg : String)
deriving Repr, DecidableEq

/-- Outcomes of the per-language localization sub-pipeline calls, in source
order: `generate_narration_script`, `synthesize_with_gemini_tts`, the caption
build/write (`build_srt_from_timeline` + `write_text`), `mix_with_narration`
and `burn_captions`.  `narration`'s payload is the narration text; `tts`'s is
the voice model tag. -/
structure LangEnv where
  narration : Except String String
  tts : Except String String
  captionsWrite : Except String Unit
  mix : Except String Unit
  burn : Except String Unit
deriving Repr

/-- The per-language payload recorded in `track_payloads` by
`_run_unified_pipeline` (local artifact paths are workspace-relative). -/
structure TrackPayload where
  status : String
  error : Option String
  voice_script : Option String
  duration_sec : Option Nat
  audio_path : Option String
  captions_path : Option String
  final_video_path : Option String
deriving Repr, DecidableEq

/-- The `except Exception` branch of the per-language loop: a failed track
payload recording `str(exc)` (never `None`). -/
def failed_track_payload (msg : String) (enhancedDur : Nat) : TrackPayload :=
  { status := "failed", error := some msg, voice_script := none,
    duration_sec := some enhancedDur, audio_path := none, captions_path := none,
    final_video_path := none }

/-- The first exception raised by a language's sub-pipeline (in source order),
if any. -/
def sub_pipeline_error (le : LangEnv) : Option String :=
  match le.narration with
  | .error e => some e
  | .ok _ =>
    match le.tts with
    | .error e => some e
    | .ok _ =>
      match le.captionsWrite with
      | .error e => some e
      | .ok _ =>
        match le.mix with
        | .error e => some e
        | .ok _ =>
          match le.burn with
          | .error e => some e
          | .ok _ => none

/-- The body of the per-language loop of `_run_unified_pipeline`: the payload
recorded for one language (success or the caught-exception payload). -/
def language_track_payload (le : LangEnv) (lang : String) (enhancedDur : Nat) :
    TrackPayload :=
  match sub_pipeline_error le with
  | some e => failed_track_payload e enhancedDur
  | none =>
    { status := "completed", error := none,
      voice_script := match le.narration with | .ok t => some t | .error _ => none,
      duration_sec := some enhancedDur,
      audio_path := some ("narration_" ++ lang ++ ".wav"),
      captions_path := some ("captions_" ++ lang ++ ".srt"),
      final_video_path := some ("final_" ++ lang ++ ".mp4") }

/-- `track_payloads`: the per-language fan-out, one loop iteration per
requested language in order (`f` maps a language to its sub-pipeline
outcomes). -/
def track_payloads (f : String → LangEnv) (langs : List String) (enhancedDur : Nat) :
    List (String × TrackPayload) :=
  langs.map fun l => (l, language_track_payload (f l) l enhancedDur)

/-- A per-language entry of the `tracks` map built by `_upload_track_assets`:
payloads whose status is not `"completed"` are stored unchanged; completed
payloads are replaced by an uploaded-track record. -/
inductive FinalTrack where
  | passthrough (payload : TrackPayload)
  | uploaded (voice_script : Option String) (duration_sec : Option Nat)
      (audio_url : String) (captions_url : String) (final_video_url : String)
deriving Repr, DecidableEq

/-- Status of a final track (`uploaded` records carry `status="completed"`). -/
def FinalTrack.status : FinalTrack → String
  | .passthrough p => p.status
  | .uploaded _ _ _ _ _ => "completed"

/-- Error of a final track (`uploaded` records carry `error=None`). -/
def FinalTrack.error : FinalTrack → Option String
  | .passthrough p => p.error
  | .uploaded _ _ _ _ _ => none

/-- The track part of `_upload_track_assets` (the storage URL of an uploaded
artifact is represented by its destination path). -/
def upload_track_assets (repo_id sha_short : String)
    (payloads : List (String × TrackPayload)) : List (String × FinalTrack) :=
  payloads.map fun kv =>
    if kv.2.status ≠ "completed" then (kv.1, .passthrough kv.2)
    else
      (kv.1, .uploaded kv.2.voice_script kv.2.duration_sec
        ("videos/" ++ repo_id ++ "/" ++ sha_short ++ "/tracks/" ++ kv.1 ++ "/voice.wav")
        ("videos/" ++ repo_id ++ "/" ++ sha_short ++ "/tracks/" ++ kv.1 ++ "/captions.srt")
        ("videos/" ++ repo_id ++ "/" ++ sha_short ++ "/tracks/" ++ kv.1 ++ "/final.mp4"))

/-- An observable event of one `_run_unified_pipeline` execution:
`persist` is an `update_video_status` write (status, stage, error, the extra
artifact fields persisted with it, and — for the final write — the `tracks`
map); `work` is one collaborator call (`lang` set for per-language calls). -/
inductive Ev where
  | persist (status : String) (stage : String) (error : Option String)
      (extras : List String) (tracks : Option (List (String × FinalTrack)))
  | work (name : String) (lang : Option String)
deriving Repr, DecidableEq

/-- The `except Exception` handler of `_run_unified_pipeline`: persist
`status="failed", stage="error"` with the exception message. -/
def fail_trace (msg : String) : List Ev :=
  [.persist "failed" "error" (some msg) [] none]

/-- Work events of one language's sub-pipeline: each call happens only if the
previous calls succeeded (the first exception aborts the language's loop
body). -/
def language_track_events (le : LangEnv) (lang : String) : List Ev :=
  .work "narration" (some lang) ::
  match le.narration with
  | .error _ => []
  | .ok _ =>
    .work "tts" (some lang) ::
    match le.tts with
    | .error _ => []
    | .ok _ =>
      .work "captions_build" (some lang) ::
      match le.captionsWrite with
      | .error _ => []
      | .ok _ =>
        .work "mix" (some lang) ::
        match le.mix with
        | .error _ => []
        | .ok _ => [.work "burn" (some lang)]

/-- The veo clip loop over clip indices: each index is attempted exactly once;
`geminiError` outcomes are skipped (`continue`), `fatal` outcomes abort the
loop (and the job).  Returns the work events and the number of clips
obtained. -/
def veo_loop (outcome : Nat → VeoOutcome) : List Nat → List Ev × Except String Nat
  | [] => ([], .ok 0)
  | idx :: rest =>
    match outcome idx with
    | .fatal msg => ([.work "veo" none], .error msg)
    | .geminiError =>
      let pr := veo_loop outcome rest
      (.work "veo" none :: pr.1, pr.2)
    | .ok =>
      let pr := veo_loop outcome rest
      (.work "veo" none :: pr.1, pr.2.map fun k => k + 1)

/-- Oracle outcomes for one `_run_unified_pipeline` execution.  Numeric
payloads: `demo` yields the normalized demo duration, `shot_plan` the number
of `clip_prompts`, `stitch` the assembled video's duration.  `demo` lumps
`record_feature_demo_sync`, the existence check, `normalize_video` and the
mid-pipeline `update_commit_feature_demo`; `uploads` lumps the demo, enhanced
and per-track uploads of `_upload_track_assets`; `commit_demo_update` is the
`update_commit_feature_demo` call made after the final status write. -/
structure PipelineEnv where
  commit_found : Bool
  website_url : String
  goal : Except String String
  demo : Except String Nat
  script : Except String Unit
  shot_plan : Except String Nat
  snapshots : Except String (List String)
  veo_enabled : Bool
  veo : Nat → VeoOutcome
  stitch : Except String Nat
  copy_demo : Except String Unit
  lang : String → LangEnv
  uploads : Except String Unit
  commit_demo_update : Except String Unit

/-- The extra fields persisted by the final (`done`/`error`) status write. -/
def done_extras : List String :=
  ["goal", "script", "shot_plan", "demo_video_url", "enhanced_video_url",
   "tracks", "video_meta", "veo_clips_generated"]

/-- The `finalize` stage and the final aggregation write: persist
`stage="finalize"`, upload all assets, then persist `status="completed",
stage="done"` when at least one uploaded track is completed and otherwise
`status="failed", stage="error"` with the synthetic aggregate error; the
trailing `update_commit_feature_demo` may still fail the job afterwards. -/
def pipeline_finalize (e : PipelineEnv) (repo_id sha_short : String)
    (langs : List String) (enhancedDur : Nat) : List Ev :=
  Ev.persist "running" "finalize" none [] none ::
  Ev.work "upload" none ::
  match e.uploads with
  | .error msg => fail_trace msg
  | .ok _ =>
    let uploaded := upload_track_assets repo_id sha_short
      (track_payloads e.lang langs enhancedDur)
    let anyOk := uploaded.any fun kv => kv.2.status == "completed"
    Ev.persist (if anyOk then "completed" else "failed")
      (if anyOk then "done" else "error")
      (if anyOk then none else some "No language tracks were generated successfully")
      done_extras (some uploaded) ::
    match e.commit_demo_update with
    | .error msg => fail_trace msg
    | .ok _ => []

/-- The `voice` stage entry plus the per-language fan-out loop (the loop
itself never raises — every language's exceptions are caught inside it). -/
def pipeline_voice (e : PipelineEnv) (repo_id sha_short : String)
    (langs : List String) (enhancedDur : Nat) : List Ev :=
  Ev.persist "running" "voice" none ["enhanced_video_duration_sec"] none ::
  ((langs.flatMap fun l => language_track_events (e.lang l) l) ++
    pipeline_finalize e repo_id sha_short langs enhancedDur)

/-- The `stitch` stage: with at least one veo clip the enhanced video is
assembled (`assemble_feature_video`), otherwise the demo video is copied and
its metadata reused. -/
def pipeline_stitch (e : PipelineEnv) (repo_id sha_short : String)
    (langs : List String) (demoDur nClips : Nat) : List Ev :=
  Ev.persist "running" "stitch" none ["veo_clips_count"] none ::
  Ev.work "stitch" none ::
  if nClips ≥ 1 then
    match e.stitch with
    | .error msg => fail_trace msg
    | .ok d => pipeline_voice e repo_id sha_short langs d
  else
    match e.copy_demo with
    | .error msg => fail_trace msg
    | .ok _ => pipeline_voice e repo_id sha_short langs demoDur

/-- The `veo` stage: at most the first two clip prompts are attempted, and
only when veo is enabled and the shot plan produced any prompts. -/
def pipeline_veo (e : PipelineEnv) (repo_id sha_short : String)
    (langs : List String) (demoDur nPrompts : Nat) : List Ev :=
  Ev.persist "running" "veo" none ["snapshots"] none ::
  (let pr := if e.veo_enabled = true ∧ nPrompts ≠ 0 then
      veo_loop e.veo (List.range (min nPrompts 2))
    else ([], .ok 0)
   pr.1 ++
   match pr.2 with
   | .error msg => fail_trace msg
   | .ok nClips => pipeline_stitch e repo_id sha_short langs demoDur nClips)

/-- The `snapshots` stage (`extract_snapshots` on the normalized demo). -/
def pipeline_snapshots (e : PipelineEnv) (repo_id sha_short : String)
    (langs : List String) (demoDur nPrompts : Nat) : List Ev :=
  Ev.persist "running" "snapshots" none ["script", "shot_plan"] none ::
  Ev.work "snapshots" none ::
  match e.snapshots with
  | .error msg => fail_trace msg
  | .ok _ => pipeline_veo e repo_id sha_short langs demoDur nPrompts

/-- The `script` stage (`generate_scene_script` then `generate_shot_plan`). -/
def pipeline_script (e : PipelineEnv) (repo_id sha_short : String)
    (langs : List String) (demoDur : Nat) : List Ev :=
  Ev.persist "running" "script" none ["demo_video_duration_sec"] none ::
  Ev.work "script" none ::
  match e.script with
  | .error msg => fail_trace msg
  | .ok _ =>
    match e.shot_plan with
    | .error msg => fail_trace msg
    | .ok nPrompts => pipeline_snapshots e repo_id sha_short langs demoDur nPrompts

/-- The `demo` stage (record, existence check, normalize, commit update). -/
def pipeline_demo (e : PipelineEnv) (repo_id sha_short : String)
    (langs : List String) : List Ev :=
  Ev.persist "running" "demo" none ["goal"] none ::
  Ev.work "demo" none ::
  match e.demo with
  | .error msg => fail_trace msg
  | .ok demoDur => pipeline_script e repo_id sha_short langs demoDur

/-- Model of `_run_unified_pipeline`: the commit and website-url guards, then
the stage sequence.  Every stage persists `status="running"` with its name
(and the artifact fields produced so far) before its work runs. -/
def run_unified_pipeline (e : PipelineEnv) (repo_id sha_short : String)
    (langs : List String) : List Ev :=
  if e.commit_found = false then
    [.persist "failed" "error" (some "Commit not found") [] none]
  else if py_strip e.website_url = "" then
    [.persist "failed" "error" (some "Repo has no website_url") [] none]
  else
    Ev.persist "running" "goal" none ["languages_requested"] none ::
    Ev.work "goal" none ::
    match e.goal with
    | .error msg => fail_trace msg
    | .ok _ => pipeline_demo e repo_id sha_short langs

/-- Whether an `Except` value is a success (`True`-like Bool for `.ok`). -/
def except_ok {α : Type} : Except String α → Bool
  | .ok _ => true
  | .error _ => false

/- ===================== trace projections and the stage protocol ===================== -/

/-- Selector for persist events. -/
def isPersistEv : Ev → Bool
  | .persist _ _ _ _ _ => true
  | .work _ _ => false

/-- The persisted status writes of a trace, in order. -/
def persist_events (t : List Ev) : List Ev := t.filter isPersistEv

/-- The last status write of a trace (the state a crash-free run leaves in
the Job Store). -/
def last_persist (t : List Ev) : Option Ev := (persist_events t).getLast?

/-- The persisted `(status, stage, extras)` triples of a trace, in order. -/
def persist_stages (t : List Ev) : List (String × String × List String) :=
  t.filterMap fun ev => match ev with
    | .persist st s _ ex _ => some (st, s, ex)
    | .work _ _ => none

/-- Number of `work n` events in a trace. -/
def count_work (n : String) (t : List Ev) : Nat :=
  (t.filter fun ev => match ev with
    | .work m _ => m == n
    | .persist _ _ _ _ _ => false).length

/-- The pipeline stage a collaborator call executes under: the six job-level
stages run under their own name; narration, TTS, caption building, mixing and
caption burning all run inside the per-language loop entered at `voice`; the
asset uploads run under `finalize`. -/
def work_stage (n : String) : Option String :=
  if n = "goal" ∨ n = "demo" ∨ n = "script" ∨ n = "snapshots" ∨ n = "veo" ∨ n = "stitch"
  then some n
  else if n = "narration" ∨ n = "tts" ∨ n = "captions_build" ∨ n = "mix" ∨ n = "burn"
  then some "voice"
  else if n = "upload" then some "finalize"
  else none

/-- One step of the stage-protocol checker.  State: the last stage persisted
with `status="running"` (`none` before the first).  A persist whose stage is
in the fixed order must not decrease the stage index, and a `running` persist
becomes the current stage; a work event must execute under the stage given by
`work_stage`.  Returns `none` on a protocol violation. -/
def protocol_step (cur : Option String) : Ev → Option (Option String)
  | .persist status s _ _ _ =>
    match stageIdx s with
    | none => some cur
    | some j =>
      match cur with
      | none => if status = "running" then some (some s) else some cur
      | some c =>
        match stageIdx c with
        | none => none
        | some i =>
          if i ≤ j then (if status = "running" then some (some s) else some cur)
          else none
  | .work n _ =>
    match work_stage n with
    | none => none
    | some s => if cur = some s then some cur else none

/-- Run the stage-protocol checker over a trace. -/
def protocol_run : Option String → List Ev → Option (Option String)
  | cur, [] => some cur
  | cur, ev :: rest =>
    match protocol_step cur ev with
    | none => none
    | some cur2 => protocol_run cur2 rest

/-- A trace obeys the stage protocol: every persisted stage transition is
non-decreasing in the fixed order, and every collaborator call runs under an
already-persisted `running` stage. -/
def protocol_ok (t : List Ev) : Bool := (protocol_run none t).isSome

/-- All job-level collaborator calls of a run succeed (nothing here restricts
the per-language sub-pipelines in `e.lang`). -/
def job_level_ok (e : PipelineEnv) : Prop :=
  e.commit_found = true ∧ py_strip e.website_url ≠ "" ∧
  (∃ g, e.goal = .ok g) ∧ (∃ d, e.demo = .ok d) ∧ e.script = .ok () ∧
  (∃ n, e.shot_plan = .ok n) ∧ (∃ s, e.snapshots = .ok s) ∧
  (∀ i m, e.veo i ≠ .fatal m) ∧ (∃ d, e.stitch = .ok d) ∧ e.copy_demo = .ok () ∧
  e.uploads = .ok () ∧ e.commit_demo_update = .ok ()

/- ===================== concrete fixtures ===================== -/

/-- A valid script payload with only two scenes (scene count below the 3
claimed by the spec, every other constraint satisfied). -/
def twoSceneScript : ScriptIn :=
  { title := "A fresh look for your workspace",
    feature_summary := "You can now see everything that matters at a glance",
    scenes :=
      some [{ on_screen_text := "Meet the new home page",
              narration_seed := "Everything you need is now in one place",
              duration_sec := some 5 },
            { on_screen_text := "Find things faster",
              narration_seed := "Your most recent items are front and center",
              duration_sec := some 5 }] }

/-- A commit document fixture. -/
def sampleCommit : CommitDoc :=
  { id := "octo_repo_abc1234", repo_full_name := "octo/repo", sha := "abc1234567890" }

/-- The job document id of `sampleCommit`. -/
def sampleVid : String := "octo_repo_abc1234"

/-- A stored job whose status is `awaiting_input`. -/
def awaitingState : SchedState :=
  { videos := [(sampleVid,
      { status := "awaiting_input", stage := "voice", error := none,
        languages_requested := ["en"], goal := some "g" })],
    futures := [], submitted := [] }

/-- A job that is mid-run: the stored document says `running` and the
in-flight registry still holds its unfinished future. -/
def runningState : SchedState :=
  { videos := [(sampleVid,
      { status := "running", stage := "demo", error := none,
        languages_requested := ["en"], goal := some "g" })],
    futures := [(sampleVid, false)], submitted := [(sampleVid, ["en"])] }

/-- The state right after a first `enqueue(languages=["en"])`: initial job
document stored, unfinished future registered, one submission logged. -/
def queuedState : SchedState :=
  { videos := [(sampleVid, base_video_doc ["en"])],
    futures := [(sampleVid, false)], submitted := [(sampleVid, ["en"])] }

/-- A language sub-pipeline in which every call succeeds. -/
def okLangEnv : LangEnv :=
  { narration := .ok "A friendly walkthrough of the new feature",
    tts := .ok "gemini-2.5-flash-preview-tts",
    captionsWrite := .ok (), mix := .ok (), burn := .ok () }

/-- A language sub-pipeline whose TTS call raises. -/
def failLangEnv : LangEnv :=
  { narration := .ok "A friendly walkthrough of the new feature",
    tts := .error "TTS quota exceeded",
    captionsWrite := .ok (), mix := .ok (), burn := .ok () }

/-- A pipeline environment in which every job-level call succeeds, both veo
clips generate, and the per-language sub-pipeline succeeds for every language
except `es`, whose TTS call raises. -/
def mixedPipelineEnv : PipelineEnv :=
  { commit_found := true, website_url := "https://example.com",
    goal := .ok "Show the new dashboard", demo := .ok 21,
    script := .ok (), shot_plan := .ok 2, snapshots := .ok ["snap_00.png", "snap_01.png"],
    veo_enabled := true, veo := fun _ => .ok, stitch := .ok 33, copy_demo := .ok (),
    lang := fun l => if l = "es" then failLangEnv else okLangEnv,
    uploads := .ok (), commit_demo_update := .ok () }

/-- A pipeline environment in which every call succeeds including every
language's sub-pipeline. -/
def okPipelineEnv : PipelineEnv :=
  { mixedPipelineEnv with lang := fun _ => okLangEnv }

/-- A pipeline environment in which every language's sub-pipeline fails. -/
def allFailPipelineEnv : PipelineEnv :=
  { mixedPipelineEnv with lang := fun _ => failLangEnv }

/-- The `(status, stage, extras)` triples persisted by a fully successful run
(in order; the spec names the `veo` stage `clip-generate`).  Note the per-stage
artifact fields: each `running` persist carries the artifacts produced before
it; `stage="captions"` never appears, and the `finalize` entry persists no
extra fields. -/
def ok_persist_stage_list : List (String × String × List String) :=
  [("running", "goal", ["languages_requested"]),
   ("running", "demo", ["goal"]),
   ("running", "script", ["demo_video_duration_sec"]),
   ("running", "snapshots", ["script", "shot_plan"]),
   ("running", "veo", ["snapshots"]),
   ("running", "stitch", ["veo_clips_count"]),
   ("running", "voice", ["enhanced_video_duration_sec"]),
   ("running", "finalize", []),
   ("completed", "done", done_extras)]

/- ===================== helper lemmas ===================== -/

theorem enqueue_video_id_eq (st : SchedState) (c : CommitDoc) (env_langs : List String)
    (languages : Option (List String)) (force : Bool) :
    (enqueue_commit_pipeline st c env_langs languages force).1.video_id =
      build_video_doc_id c.repo_full_name c.sha := by
  unfold enqueue_commit_pipeline
  dsimp only
  split
  · rfl
  · split
    · split <;> rfl
    · rfl

/- ===================== claim theorems ===================== -/

/-- Claim C9: for every requested integer clip duration, `_snap_duration`
returns the member of the fixed allowed set {4, 6, 8} nearest to the request,
with ties resolved in favor of the smaller value; in particular 5 snaps to 4,
7 snaps to 6 and 8 snaps to 8. -/
theorem snap_duration_nearest (r : Int) :
    snap_duration r ∈ VEO_ALLOWED_DURATIONS ∧
    (∀ d ∈ VEO_ALLOWED_DURATIONS,
      (snap_duration r - r).natAbs ≤ (d - r).natAbs ∧
      ((d - r).natAbs = (snap_duration r - r).natAbs → snap_duration r ≤ d)) ∧
    snap_duration 5 = 4 ∧ snap_duration 7 = 6 ∧ snap_duration 8 = 8 := by
  refine ⟨?_, ?_, by decide, by decide, by decide⟩
  · simp only [snap_duration, pyMinBy, VEO_ALLOWED_DURATIONS, List.foldl, Option.getD,
      List.mem_cons, List.not_mem_nil, or_false]
    split_ifs <;> simp
  · intro d hd
    simp only [VEO_ALLOWED_DURATIONS, List.mem_cons, List.not_mem_nil, or_false] at hd
    simp only [snap_duration, pyMinBy, VEO_ALLOWED_DURATIONS, List.foldl, Option.getD]
    rcases hd with rfl | rfl | rfl <;> constructor <;> split_ifs <;> omega

/-- Claim C9 witness: the snapping examples evaluated through the theorem. -/
theorem snap_duration_nearest_witness :
    snap_duration 5 = 4 ∧ snap_duration 7 = 6 ∧ snap_duration 8 = 8 :=
  ⟨(snap_duration_nearest 5).2.2.1, (snap_duration_nearest 7).2.2.2.1,
   (snap_duration_nearest 8).2.2.2.2⟩

/-- Claim C10: the job document id is `repoFullName.replace("/", "_") + "_" +
sha[:7]`; it is a deterministic function that does not depend on the requested
languages, and it is not injective: shas agreeing on their first 7 characters
collide, as do repo names differing only in `/` versus `_`. -/
theorem build_video_doc_id_spec :
    (∀ repo sha : String,
      build_video_doc_id repo sha =
        String.mk (repo.data.map fun c => if c = '/' then '_' else c) ++ "_" ++
          String.mk (sha.data.take 7)) ∧
    (∀ (st : SchedState) (c : CommitDoc) (env_langs : List String)
      (langs1 langs2 : Option (List String)) (force : Bool),
      (enqueue_commit_pipeline st c env_langs langs1 force).1.video_id =
      (enqueue_commit_pipeline st c env_langs langs2 force).1.video_id) ∧
    (build_video_doc_id "octo/repo" "abcdefg1111" = build_video_doc_id "octo/repo" "abcdefg2222" ∧
      ("abcdefg1111" : String) ≠ "abcdefg2222") ∧
    (build_video_doc_id "octo/repo" "abc1234567" = build_video_doc_id "octo_repo" "abc1234567" ∧
      ("octo/repo" : String) ≠ "octo_repo") := by
  refine ⟨fun repo sha => rfl, ?_, ⟨by decide, by decide⟩, ⟨by decide, by decide⟩⟩
  intro st c env_langs langs1 langs2 force
  rw [enqueue_video_id_eq, enqueue_video_id_eq]

/-- Claim C10 witness: the theorem applied at concrete inputs. -/
theorem build_video_doc_id_spec_witness :
    build_video_doc_id "octo/repo" "abc1234567890" = "octo_repo_abc1234" := by
  rw [build_video_doc_id_spec.1 "octo/repo" "abc1234567890"]
  decide

/-- Claim C5 (counterexample): a stored job with `status="awaiting_input"` is
not skipped by `enqueue` with `force=false` — the source guard checks only
`{"running", "completed"}`, and `awaiting_input` appears nowhere in the code
— contradicting the claim that `awaiting_input` also causes
`already_running_or_completed`. -/
theorem enqueue_awaiting_input_not_skipped :
    (get_video awaitingState.videos sampleVid).map (fun d => d.status) =
      some "awaiting_input" ∧
    (enqueue_commit_pipeline awaitingState sampleCommit [] (some ["en"]) false).1.queued = true ∧
    (enqueue_commit_pipeline awaitingState sampleCommit [] (some ["en"]) false).1.skipped = false ∧
    (enqueue_commit_pipeline awaitingState sampleCommit [] (some ["en"]) false).2.submitted =
      awaitingState.submitted ++ [(sampleVid, ["en"])] := by
  refine ⟨rfl, rfl, rfl, rfl⟩

/-- Claim C5 (amended): if the stored job's status is `running` or
`completed` (the set the code actually checks; `awaiting_input` is not in it)
and `force` is false, `enqueue` returns `skipped=true` with reason
`already_running_or_completed`, reports the existing status, and leaves the
scheduler state (store, registry, submissions) unchanged. -/
theorem enqueue_skips_running_or_completed (st : SchedState) (c : CommitDoc)
    (env_langs : List String) (languages : Option (List String)) (d : JobDoc)
    (hex : get_video st.videos (build_video_doc_id c.repo_full_name c.sha) = some d)
    (hst : d.status = "running" ∨ d.status = "completed") :
    enqueue_commit_pipeline st c env_langs languages false =
      ({ queued := false, skipped := true, reason := some "already_running_or_completed",
         video_id := build_video_doc_id c.repo_full_name c.sha, status := d.status,
         languages_requested := none, stage := none }, st) := by
  unfold enqueue_commit_pipeline
  dsimp only
  rw [hex]
  split
  · rfl
  · rename_i hcond
    rcases hst with h | h <;> simp [h] at hcond

/-- Claim C5 witness: the amended theorem applied to a concrete mid-run
state. -/
theorem enqueue_skips_running_or_completed_witness :
    enqueue_commit_pipeline runningState sampleCommit [] (some ["en"]) false =
      ({ queued := false, skipped := true, reason := some "already_running_or_completed",
         video_id := sampleVid, status := "running",
         languages_requested := none, stage := none }, runningState) :=
  enqueue_skips_running_or_completed runningState sampleCommit [] (some ["en"])
    { status := "running", stage := "demo", error := none,
      languages_requested := ["en"], goal := some "g" }
    rfl (Or.inl rfl)

theorem assoc_upsert_find {α : Type} (l : List (String × α)) (k : String) (v : α) :
    ((if l.any fun kv => kv.1 = k then
        l.map fun kv => if kv.1 = k then (k, v) else kv
      else l ++ [(k, v)]).find? fun kv => kv.1 = k) = some (k, v) := by
  induction l with
  | nil => simp
  | cons kv rest ih =>
    by_cases hk : kv.1 = k
    · simp [hk]
    · cases hr : (rest.any fun kv2 => kv2.1 = k) with
      | true =>
        have ih2 := ih
        rw [if_pos hr] at ih2
        have hcond : ((kv :: rest).any fun kv2 => kv2.1 = k) = true := by
          simp [List.any_cons, hk, hr]
        simp only [hcond, if_true, List.map_cons, if_neg hk]
        rw [List.find?_cons_of_neg _ (by simpa using hk)]
        exact ih2
      | false =>
        have ih2 := ih
        rw [if_neg (by simp [hr])] at ih2
        have hcond : ((kv :: rest).any fun kv2 => kv2.1 = k) = false := by
          simp [List.any_cons, hk, hr]
        simp only [hcond, Bool.false_eq_true, if_false, List.cons_append]
        rw [List.find?_cons_of_neg _ (by simpa using hk)]
        exact ih2

theorem get_video_upsert_self (videos : List (String × JobDoc)) (doc_id : String)
    (doc : JobDoc) :
    get_video (upsert_video_doc videos doc_id doc) doc_id = some doc := by
  unfold get_video upsert_video_doc
  rw [assoc_upsert_find]
  rfl

theorem get_future_set_self (futures : List (String × Bool)) (doc_id : String) (d : Bool) :
    get_future (set_future futures doc_id d) doc_id = some d := by
  unfold get_future set_future
  rw [assoc_upsert_find]
  rfl

/-- Claim C3 (counterexample): with an unfinished handle in the in-flight
registry and `force=false`, the reported reason need not be `already_queued`:
when the stored job's status is `running` the earlier status guard answers
first, with reason `already_running_or_completed` (no execution is submitted
either way). -/
theorem enqueue_inflight_reason_not_already_queued :
    get_future runningState.futures sampleVid = some false ∧
    (enqueue_commit_pipeline runningState sampleCommit [] (some ["en"]) false).1.reason =
      some "already_running_or_completed" ∧
    some "already_running_or_completed" ≠ some "already_queued" := by
  refine ⟨rfl, rfl, by decide⟩

/-- Claim C3 (amended): when the status guard passes, an unfinished handle in
the registry with `force=false` yields `queued=false, skipped=true,
reason="already_queued"` with nothing submitted and the registry unchanged;
and from a state with no stored job and no handle, two enqueue calls with the
same commit and `force=false` submit exactly one execution, the second call
reporting `skipped=true, reason="already_queued"`. -/
theorem enqueue_already_queued_idempotent :
    (∀ (st : SchedState) (c : CommitDoc) (env_langs : List String)
       (languages : Option (List String)),
      (∀ d, get_video st.videos (build_video_doc_id c.repo_full_name c.sha) = some d →
        d.status ≠ "running" ∧ d.status ≠ "completed") →
      get_future st.futures (build_video_doc_id c.repo_full_name c.sha) = some false →
      (enqueue_commit_pipeline st c env_langs languages false).1 =
        { queued := false, skipped := true, reason := some "already_queued",
          video_id := build_video_doc_id c.repo_full_name c.sha, status := "running",
          languages_requested := none, stage := none } ∧
      (enqueue_commit_pipeline st c env_langs languages false).2.futures = st.futures ∧
      (enqueue_commit_pipeline st c env_langs languages false).2.submitted = st.submitted) ∧
    (∀ (st : SchedState) (c : CommitDoc) (env_langs : List String)
       (languages : Option (List String)),
      get_video st.videos (build_video_doc_id c.repo_full_name c.sha) = none →
      get_future st.futures (build_video_doc_id c.repo_full_name c.sha) = none →
      (enqueue_commit_pipeline st c env_langs languages false).1.queued = true ∧
      (enqueue_commit_pipeline st c env_langs languages false).2.submitted =
        st.submitted ++ [(build_video_doc_id c.repo_full_name c.sha,
          parse_target_languages env_langs languages)] ∧
      (enqueue_commit_pipeline
          (enqueue_commit_pipeline st c env_langs languages false).2
          c env_langs languages false).1.skipped = true ∧
      (enqueue_commit_pipeline
          (enqueue_commit_pipeline st c env_langs languages false).2
          c env_langs languages false).1.reason = some "already_queued" ∧
      (enqueue_commit_pipeline
          (enqueue_commit_pipeline st c env_langs languages false).2
          c env_langs languages false).2.submitted =
        st.submitted ++ [(build_video_doc_id c.repo_full_name c.sha,
          parse_target_languages env_langs languages)]) := by
  constructor
  · intro st c env_langs languages hnb hf
    rcases hge : get_video st.videos (build_video_doc_id c.repo_full_name c.sha) with _ | d0
    · unfold enqueue_commit_pipeline
      dsimp only
      rw [hge, hf]
      exact ⟨rfl, rfl, rfl⟩
    · have h1 := hnb d0 hge
      unfold enqueue_commit_pipeline
      dsimp only
      rw [hge, hf]
      split
      · rename_i hcond
        exfalso
        simp [h1.1, h1.2] at hcond
      · exact ⟨rfl, rfl, rfl⟩
  · intro st c env_langs languages hv hf0
    have hfirst : enqueue_commit_pipeline st c env_langs languages false =
        ({ queued := true, skipped := false, reason := none,
           video_id := build_video_doc_id c.repo_full_name c.sha, status := "queued",
           languages_requested := some (parse_target_languages env_langs languages),
           stage := some "goal" },
         { videos := upsert_video_doc st.videos (build_video_doc_id c.repo_full_name c.sha)
             (base_video_doc (parse_target_languages env_langs languages)),
           futures := set_future st.futures (build_video_doc_id c.repo_full_name c.sha) false,
           submitted := st.submitted ++ [(build_video_doc_id c.repo_full_name c.sha,
             parse_target_languages env_langs languages)] }) := by
      unfold enqueue_commit_pipeline
      dsimp only
      rw [hv, hf0]
      rfl
    refine ⟨by rw [hfirst], by rw [hfirst], ?_, ?_, ?_⟩ <;>
    · rw [hfirst]
      unfold enqueue_commit_pipeline
      dsimp only
      rw [get_video_upsert_self, get_future_set_self]
      rfl

/-- Claim C3 witness: the amended theorem's two-call scenario evaluated from
an empty scheduler state. -/
theorem enqueue_already_queued_idempotent_witness :
    (enqueue_commit_pipeline
        (enqueue_commit_pipeline ⟨[], [], []⟩ sampleCommit [] (some ["en"]) false).2
        sampleCommit [] (some ["en"]) false).1.reason = some "already_queued" :=
  (enqueue_already_queued_idempotent.2 ⟨[], [], []⟩ sampleCommit [] (some ["en"])
    rfl rfl).2.2.2.1

/-- Claim C6 (counterexample): on the `already_queued` skip path the existing
Job Store record is NOT left unchanged — the initial-state upsert runs before
the in-flight registry check, so a second rapid enqueue with different
languages overwrites the stored document even though it returns
`skipped=true`. -/
theorem enqueue_already_queued_overwrites_doc :
    (enqueue_commit_pipeline queuedState sampleCommit [] (some ["fr"]) false).1.skipped =
      true ∧
    (enqueue_commit_pipeline queuedState sampleCommit [] (some ["fr"]) false).1.reason =
      some "already_queued" ∧
    get_video queuedState.videos sampleVid = some (base_video_doc ["en"]) ∧
    get_video
      (enqueue_commit_pipeline queuedState sampleCommit [] (some ["fr"]) false).2.videos
      sampleVid = some (base_video_doc ["fr"]) ∧
    base_video_doc ["fr"] ≠ base_video_doc ["en"] := by
  refine ⟨rfl, rfl, rfl, rfl, by decide⟩

/-- Claim C6 (amended): the initial-state upsert happens on every enqueue
call that passes the existing-status guard — including the path that then
returns `skipped=true, reason="already_queued"`; only the
`already_running_or_completed` skip path leaves the stored record unchanged.
Conjuncts: (1) the status-guard skip path returns the state untouched;
(2) the `already_queued` skip path stores the initial document (registry and
submissions untouched); (3) the queued path stores the initial document and
submits. -/
theorem enqueue_upsert_paths :
    (∀ (st : SchedState) (c : CommitDoc) (env_langs : List String)
       (languages : Option (List String)) (d : JobDoc),
      get_video st.videos (build_video_doc_id c.repo_full_name c.sha) = some d →
      (d.status = "running" ∨ d.status = "completed") →
      (enqueue_commit_pipeline st c env_langs languages false).2 = st) ∧
    (∀ (st : SchedState) (c : CommitDoc) (env_langs : List String)
       (languages : Option (List String)),
      (∀ d, get_video st.videos (build_video_doc_id c.repo_full_name c.sha) = some d →
        d.status ≠ "running" ∧ d.status ≠ "completed") →
      get_future st.futures (build_video_doc_id c.repo_full_name c.sha) = some false →
      (enqueue_commit_pipeline st c env_langs languages false).2 =
        { videos := upsert_video_doc st.videos (build_video_doc_id c.repo_full_name c.sha)
            (base_video_doc (parse_target_languages env_langs languages)),
          futures := st.futures, submitted := st.submitted }) ∧
    (∀ (st : SchedState) (c : CommitDoc) (env_langs : List String)
       (languages : Option (List String)),
      (∀ d, get_video st.videos (build_video_doc_id c.repo_full_name c.sha) = some d →
        d.status ≠ "running" ∧ d.status ≠ "completed") →
      get_future st.futures (build_video_doc_id c.repo_full_name c.sha) = none →
      (enqueue_commit_pipeline st c env_langs languages false).2 =
        { videos := upsert_video_doc st.videos (build_video_doc_id c.repo_full_name c.sha)
            (base_video_doc (parse_target_languages env_langs languages)),
          futures := set_future st.futures (build_video_doc_id c.repo_full_name c.sha) false,
          submitted := st.submitted ++ [(build_video_doc_id c.repo_full_name c.sha,
            parse_target_languages env_langs languages)] }) := by
  refine ⟨?_, ?_, ?_⟩
  · intro st c env_langs languages d hex hst
    unfold enqueue_commit_pipeline
    dsimp only
    rw [hex]
    split
    · rfl
    · rename_i hcond
      rcases hst with h | h <;> simp [h] at hcond
  · intro st c env_langs languages hnb hf
    rcases hge : get_video st.videos (build_video_doc_id c.repo_full_name c.sha) with _ | d0
    · unfold enqueue_commit_pipeline
      dsimp only
      rw [hge, hf]
      rfl
    · have h1 := hnb d0 hge
      unfold enqueue_commit_pipeline
      dsimp only
      rw [hge, hf]
      split
      · rename_i hcond
        exfalso
        simp [h1.1, h1.2] at hcond
      · rfl
  · intro st c env_langs languages hnb hf
    rcases hge : get_video st.videos (build_video_doc_id c.repo_full_name c.sha) with _ | d0
    · unfold enqueue_commit_pipeline
      dsimp only
      rw [hge, hf]
      rfl
    · have h1 := hnb d0 hge
      unfold enqueue_commit_pipeline
      dsimp only
      rw [hge, hf]
      split
      · rename_i hcond
        exfalso
        simp [h1.1, h1.2] at hcond
      · rfl

/-- Claim C6 witness: the amended theorem's `already_queued` conjunct
evaluated on a concrete just-queued state. -/
theorem enqueue_upsert_paths_witness :
    (enqueue_commit_pipeline queuedState sampleCommit [] (some ["fr"]) false).2 =
      { videos := upsert_video_doc queuedState.videos sampleVid (base_video_doc ["fr"]),
        futures := queuedState.futures, submitted := queuedState.submitted } :=
  enqueue_upsert_paths.2.1 queuedState sampleCommit [] (some ["fr"])
    (fun d hd => by
      simp only [queuedState, get_video, base_video_doc] at hd
      cases hd
      exact ⟨by decide, by decide⟩)
    rfl

theorem validate_scenes_spec (scenes : List SceneIn) (index : Nat) (total : ℚ) :
    (scenes.any sceneViolation = true → except_ok (validate_scenes scenes index total) = false) ∧
    (scenes.any sceneViolation = false →
      ∃ outs, validate_scenes scenes index total =
        .ok (outs, total + (scenes.map fun s => s.duration_sec.getD 0).sum)) := by
  induction scenes generalizing index total with
  | nil =>
    refine ⟨by intro h; simp at h, by intro _; exact ⟨[], by simp [validate_scenes]⟩⟩
  | cons scene rest ih =>
    constructor
    · intro h
      unfold validate_scenes
      dsimp only
      split_ifs with h1 h2 h3
      · rfl
      · rfl
      · rfl
      · cases hd : scene.duration_sec with
        | none => rfl
        | some q =>
          dsimp only
          split_ifs with h4
          · rfl
          · have hsv : sceneViolation scene = false := by
              simp only [sceneViolation, hd]
              simp only [Bool.or_eq_false_iff]
              refine ⟨⟨⟨⟨by simpa using h1, by simpa using h2⟩, ?_⟩, ?_⟩, ?_⟩
              · simp only [Bool.or_eq_true] at h3
                exact Bool.eq_false_iff.mpr fun hc => h3 (Or.inl hc)
              · simp only [Bool.or_eq_true] at h3
                exact Bool.eq_false_iff.mpr fun hc => h3 (Or.inr hc)
              · push_neg at h4
                simp [h4.1, h4.2]
            have hrest : rest.any sceneViolation = true := by
              simp only [List.any_cons, hsv, Bool.false_or] at h
              exact h
            have hih := (ih (index + 1) (total + q)).1 hrest
            cases hrec : validate_scenes rest (index + 1) (total + q) with
            | error e => rfl
            | ok pr => rw [hrec] at hih; simp [except_ok] at hih
    · intro h
      simp only [List.any_cons, Bool.or_eq_false_iff] at h
      obtain ⟨hsv, hrest⟩ := h
      have hcomp := hsv
      simp only [sceneViolation, Bool.or_eq_false_iff] at hcomp
      obtain ⟨⟨⟨⟨ht, hn⟩, hj1⟩, hj2⟩, hdur⟩ := hcomp
      unfold validate_scenes
      dsimp only
      rw [if_neg (by simpa using ht), if_neg (by simpa using hn),
        if_neg (by simp [Bool.or_eq_true, hj1, hj2])]
      cases hd : scene.duration_sec with
      | none => rw [hd] at hdur; simp at hdur
      | some q =>
        rw [hd] at hdur
        simp only [Bool.or_eq_false_iff, decide_eq_false_iff_not] at hdur
        dsimp only
        rw [if_neg (by push_neg; exact ⟨le_of_not_lt hdur.1, le_of_not_lt hdur.2⟩)]
        obtain ⟨outs, hout⟩ := (ih (index + 1) (total + q)).2 hrest
        rw [hout]
        refine ⟨{ on_screen_text := truncate (py_strip scene.on_screen_text) 240,
                  narration_seed := truncate (py_strip scene.narration_seed) 260,
                  duration_sec := q } :: outs, ?_⟩
        simp [hd, add_assoc]

/-- Claim C7 (amended): `validate_scene_script` raises a `ValidationError` if
and only if the script violates the constraints the code actually enforces:
empty title or summary, `scenes` missing/empty or longer than 8 (the lower
scene-count bound is 1, not the 3 stated by the spec), jargon in any text
field, a missing or non-numeric scene duration, a scene duration outside
[2, 20], or a total duration above 120 seconds; a script satisfying all of
these is accepted. -/
theorem validate_scene_script_ok_iff (p : ScriptIn) :
    except_ok (validate_scene_script p) = !(scriptViolation p) := by
  unfold validate_scene_script scriptViolation
  dsimp only
  by_cases h1 : py_strip p.title = ""
  · rw [if_pos h1]; simp [except_ok, h1]
  · rw [if_neg h1]
    by_cases h2 : py_strip p.feature_summary = ""
    · rw [if_pos h2]; simp [except_ok, h1, h2]
    · rw [if_neg h2]
      cases hs : p.scenes with
      | none => simp [except_ok]
      | some scenes =>
        dsimp only
        by_cases h3 : scenes.isEmpty = true
        · rw [if_pos h3]; simp [except_ok, h3]
        · rw [if_neg h3]
          by_cases h4 : scenes.length > 8
          · rw [if_pos h4]; simp [except_ok, h3, h4]
          · rw [if_neg h4]
            by_cases h5 : (contains_jargon (py_strip p.title) ||
                contains_jargon (py_strip p.feature_summary)) = true
            · rw [if_pos h5]
              rcases Bool.or_eq_true_iff.mp h5 with hj | hj <;> simp [except_ok, hj]
            · rw [if_neg h5]
              have hj5 : contains_jargon (py_strip p.title) = false ∧
                  contains_jargon (py_strip p.feature_summary) = false := by
                rcases Bool.or_eq_false_iff.mp (Bool.eq_false_iff.mpr h5) with ⟨ha, hb⟩
                exact ⟨ha, hb⟩
              have hspec := validate_scenes_spec scenes 0 0
              cases hany : scenes.any sceneViolation with
              | true =>
                have hko := hspec.1 hany
                cases hrec : validate_scenes scenes 0 0 with
                | error e => simp [except_ok]
                | ok pr => rw [hrec] at hko; simp [except_ok] at hko
              | false =>
                obtain ⟨outs, hout⟩ := hspec.2 hany
                rw [hout]
                dsimp only
                rw [zero_add]
                by_cases h6 : (scenes.map fun s => s.duration_sec.getD 0).sum > 120
                · rw [if_pos h6]
                  simp [except_ok, hany, hj5.1, hj5.2, h6]
                · rw [if_neg h6]
                  simp [except_ok, h1, h2, h3, h4, hany, hj5.1, hj5.2, h6]

/-- Claim C7 (counterexample): a script with only two scenes — a scene count
outside the 3 to 8 range claimed by the spec — that satisfies every other
constraint is accepted by `validate_scene_script` without raising. -/
theorem validate_scene_script_accepts_two_scenes :
    (twoSceneScript.scenes.getD []).length = 2 ∧
    ¬ (3 ≤ (twoSceneScript.scenes.getD []).length) ∧
    except_ok (validate_scene_script twoSceneScript) = true := by
  refine ⟨rfl, by decide, ?_⟩
  have hv : ([{ on_screen_text := "Meet the new home page",
                narration_seed := "Everything you need is now in one place",
                duration_sec := some 5 },
              { on_screen_text := "Find things faster",
                narration_seed := "Your most recent items are front and center",
                duration_sec := some 5 }] : List SceneIn).any sceneViolation = false := by
    decide
  obtain ⟨outs, hout⟩ := (validate_scenes_spec _ 0 0).2 hv
  simp only [validate_scene_script, twoSceneScript]
  rw [if_neg (by decide), if_neg (by decide)]
  rw [if_neg (by decide), if_neg (by decide), if_neg (by decide), hout]
  dsimp only
  rw [if_neg (by norm_num)]
  rfl

/-- Claim C7 witness: the amended equivalence applied to the concrete
two-scene script. -/
theorem validate_scene_script_ok_iff_witness :
    except_ok (validate_scene_script twoSceneScript) = !(scriptViolation twoSceneScript) :=
  validate_scene_script_ok_iff twoSceneScript

theorem protocol_run_append (xs ys : List Ev) (cur : Option String) :
    protocol_run cur (xs ++ ys) =
      match protocol_run cur xs with
      | none => none
      | some c => protocol_run c ys := by
  induction xs generalizing cur with
  | nil => rfl
  | cons ev rest ih =>
    simp only [List.cons_append, protocol_run]
    cases protocol_step cur ev with
    | none => rfl
    | some c2 => exact ih c2

theorem protocol_run_fail_trace (msg : String) (cur : Option String) :
    protocol_run cur (fail_trace msg) = some cur := rfl

theorem protocol_lang_events (le : LangEnv) (l : String) :
    protocol_run (some "voice") (language_track_events le l) = some (some "voice") := by
  unfold language_track_events
  cases le.narration <;> cases le.tts <;> cases le.captionsWrite <;>
    cases le.mix <;> cases le.burn <;> rfl

theorem protocol_langs_flatMap (f : String → LangEnv) (langs : List String) :
    protocol_run (some "voice")
      (langs.flatMap fun l => language_track_events (f l) l) = some (some "voice") := by
  induction langs with
  | nil => rfl
  | cons l rest ih =>
    rw [List.flatMap_cons, protocol_run_append, protocol_lang_events]
    exact ih

theorem protocol_work_veo (evs : List Ev) (h : ∀ ev ∈ evs, ev = .work "veo" none) :
    protocol_run (some "veo") evs = some (some "veo") := by
  induction evs with
  | nil => rfl
  | cons ev rest ih =>
    have hev := h ev (List.mem_cons_self ev rest)
    subst hev
    show protocol_run (some "veo") (Ev.work "veo" none :: rest) = some (some "veo")
    have hstep : protocol_step (some "veo") (Ev.work "veo" none) = some (some "veo") := rfl
    simp only [protocol_run, hstep]
    exact ih fun e he => h e (List.mem_cons_of_mem _ he)

theorem veo_loop_no_fatal (outcome : Nat → VeoOutcome) (idxs : List Nat)
    (h : ∀ i m, outcome i ≠ .fatal m) :
    (∃ k, (veo_loop outcome idxs).2 = .ok k) ∧
    (veo_loop outcome idxs).1.length = idxs.length ∧
    ∀ ev ∈ (veo_loop outcome idxs).1, ev = .work "veo" none := by
  induction idxs with
  | nil => exact ⟨⟨0, rfl⟩, rfl, by simp [veo_loop]⟩
  | cons i rest ih =>
    obtain ⟨⟨k, hk⟩, hlen, hall⟩ := ih
    unfold veo_loop
    cases hoc : outcome i with
    | fatal m => exact absurd hoc (h i m)
    | geminiError =>
      refine ⟨⟨k, by simpa using hk⟩, by simpa using hlen, ?_⟩
      intro ev hev
      simp only [List.mem_cons] at hev
      rcases hev with rfl | hev
      · rfl
      · exact hall ev hev
    | ok =>
      refine ⟨⟨k + 1, by simp [hk, Except.map]⟩, by simpa using hlen, ?_⟩
      intro ev hev
      simp only [List.mem_cons] at hev
      rcases hev with rfl | hev
      · rfl
      · exact hall ev hev

theorem veo_loop_events_work (outcome : Nat → VeoOutcome) (idxs : List Nat) :
    ∀ ev ∈ (veo_loop outcome idxs).1, ev = .work "veo" none := by
  induction idxs with
  | nil => simp [veo_loop]
  | cons i rest ih =>
    intro ev hev
    unfold veo_loop at hev
    cases hoc : outcome i <;> rw [hoc] at hev <;>
      simp only [List.mem_cons, List.not_mem_nil, or_false] at hev
    · rcases hev with rfl | hev
      · rfl
      · exact ih ev hev
    · rcases hev with rfl | hev
      · rfl
      · exact ih ev hev
    · exact hev

theorem protocol_finalize_seg (e : PipelineEnv) (rid ss : String) (langs : List String)
    (d : Nat) :
    (protocol_run (some "voice") (pipeline_finalize e rid ss langs d)).isSome = true := by
  unfold pipeline_finalize
  dsimp only
  cases e.uploads with
  | error msg => rfl
  | ok u =>
    cases hA : ((upload_track_assets rid ss (track_payloads e.lang langs d)).any
        fun kv => kv.2.status == "completed") <;>
      cases e.commit_demo_update <;> rfl

theorem protocol_voice_seg (e : PipelineEnv) (rid ss : String) (langs : List String)
    (d : Nat) :
    (protocol_run (some "stitch") (pipeline_voice e rid ss langs d)).isSome = true := by
  have hstep : protocol_step (some "stitch")
      (Ev.persist "running" "voice" none ["enhanced_video_duration_sec"] none) =
      some (some "voice") := rfl
  simp only [pipeline_voice, protocol_run, hstep]
  rw [protocol_run_append, protocol_langs_flatMap]
  exact protocol_finalize_seg e rid ss langs d

theorem protocol_stitch_seg (e : PipelineEnv) (rid ss : String) (langs : List String)
    (demoDur nClips : Nat) :
    (protocol_run (some "veo") (pipeline_stitch e rid ss langs demoDur nClips)).isSome =
      true := by
  have hstep : protocol_step (some "veo")
      (Ev.persist "running" "stitch" none ["veo_clips_count"] none) =
      some (some "stitch") := rfl
  have hstep2 : protocol_step (some "stitch") (Ev.work "stitch" none) =
      some (some "stitch") := rfl
  simp only [pipeline_stitch, protocol_run, hstep, hstep2]
  split
  · cases e.stitch with
    | error msg => rfl
    | ok dd => exact protocol_voice_seg e rid ss langs dd
  · cases e.copy_demo with
    | error msg => rfl
    | ok u => exact protocol_voice_seg e rid ss langs demoDur

theorem protocol_veo_seg (e : PipelineEnv) (rid ss : String) (langs : List String)
    (demoDur nPrompts : Nat) :
    (protocol_run (some "snapshots") (pipeline_veo e rid ss langs demoDur nPrompts)).isSome =
      true := by
  have hstep : protocol_step (some "snapshots")
      (Ev.persist "running" "veo" none ["snapshots"] none) = some (some "veo") := rfl
  simp only [pipeline_veo, protocol_run, hstep]
  rw [protocol_run_append]
  by_cases hen : e.veo_enabled = true ∧ nPrompts ≠ 0
  · rw [if_pos hen]
    rw [protocol_work_veo _ (veo_loop_events_work e.veo (List.range (min nPrompts 2)))]
    cases (veo_loop e.veo (List.range (min nPrompts 2))).2 with
    | error msg => rfl
    | ok nClips => exact protocol_stitch_seg e rid ss langs demoDur nClips
  · rw [if_neg hen]
    show (protocol_run (some "veo") (pipeline_stitch e rid ss langs demoDur 0)).isSome = true
    exact protocol_stitch_seg e rid ss langs demoDur 0

theorem protocol_snapshots_seg (e : PipelineEnv) (rid ss : String) (langs : List String)
    (demoDur nPrompts : Nat) :
    (protocol_run (some "script")
      (pipeline_snapshots e rid ss langs demoDur nPrompts)).isSome = true := by
  have hstep : protocol_step (some "script")
      (Ev.persist "running" "snapshots" none ["script", "shot_plan"] none) =
      some (some "snapshots") := rfl
  have hstep2 : protocol_step (some "snapshots") (Ev.work "snapshots" none) =
      some (some "snapshots") := rfl
  simp only [pipeline_snapshots, protocol_run, hstep, hstep2]
  cases e.snapshots with
  | error msg => rfl
  | ok s => exact protocol_veo_seg e rid ss langs demoDur nPrompts

theorem protocol_script_seg (e : PipelineEnv) (rid ss : String) (langs : List String)
    (demoDur : Nat) :
    (protocol_run (some "demo") (pipeline_script e rid ss langs demoDur)).isSome = true := by
  have hstep : protocol_step (some "demo")
      (Ev.persist "running" "script" none ["demo_video_duration_sec"] none) =
      some (some "script") := rfl
  have hstep2 : protocol_step (some "script") (Ev.work "script" none) =
      some (some "script") := rfl
  simp only [pipeline_script, protocol_run, hstep, hstep2]
  cases e.script with
  | error msg => rfl
  | ok u =>
    cases e.shot_plan with
    | error msg => rfl
    | ok nPrompts => exact protocol_snapshots_seg e rid ss langs demoDur nPrompts

theorem protocol_demo_seg (e : PipelineEnv) (rid ss : String) (langs : List String) :
    (protocol_run (some "goal") (pipeline_demo e rid ss langs)).isSome = true := by
  have hstep : protocol_step (some "goal")
      (Ev.persist "running" "demo" none ["goal"] none) = some (some "demo") := rfl
  have hstep2 : protocol_step (some "demo") (Ev.work "demo" none) =
      some (some "demo") := rfl
  simp only [pipeline_demo, protocol_run, hstep, hstep2]
  cases e.demo with
  | error msg => rfl
  | ok demoDur => exact protocol_script_seg e rid ss langs demoDur

theorem run_protocol_ok (e : PipelineEnv) (rid ss : String) (langs : List String) :
    protocol_ok (run_unified_pipeline e rid ss langs) = true := by
  unfold protocol_ok run_unified_pipeline
  split
  · rfl
  · split
    · rfl
    · have hstep : protocol_step none
        (Ev.persist "running" "goal" none ["languages_requested"] none) =
        some (some "goal") := rfl
      have hstep2 : protocol_step (some "goal") (Ev.work "goal" none) =
        some (some "goal") := rfl
      simp only [protocol_run, hstep, hstep2]
      cases e.goal with
      | error msg => rfl
      | ok g => exact protocol_demo_seg e rid ss langs

theorem run_ok_trace (e : PipelineEnv) (rid ss : String) (langs : List String)
    (h : job_level_ok e) :
    ∃ (veoEvs : List Ev) (nPrompts dEnh : Nat),
      e.shot_plan = .ok nPrompts ∧
      (∀ ev ∈ veoEvs, ev = .work "veo" none) ∧
      veoEvs.length = (if e.veo_enabled = true ∧ nPrompts ≠ 0 then min nPrompts 2 else 0) ∧
      run_unified_pipeline e rid ss langs =
        [Ev.persist "running" "goal" none ["languages_requested"] none,
         Ev.work "goal" none,
         Ev.persist "running" "demo" none ["goal"] none,
         Ev.work "demo" none,
         Ev.persist "running" "script" none ["demo_video_duration_sec"] none,
         Ev.work "script" none,
         Ev.persist "running" "snapshots" none ["script", "shot_plan"] none,
         Ev.work "snapshots" none,
         Ev.persist "running" "veo" none ["snapshots"] none] ++ veoEvs ++
        [Ev.persist "running" "stitch" none ["veo_clips_count"] none,
         Ev.work "stitch" none,
         Ev.persist "running" "voice" none ["enhanced_video_duration_sec"] none] ++
        (langs.flatMap fun l => language_track_events (e.lang l) l) ++
        [Ev.persist "running" "finalize" none [] none,
         Ev.work "upload" none,
         Ev.persist
           (if (upload_track_assets rid ss (track_payloads e.lang langs dEnh)).any
               (fun kv => kv.2.status == "completed") then "completed" else "failed")
           (if (upload_track_assets rid ss (track_payloads e.lang langs dEnh)).any
               (fun kv => kv.2.status == "completed") then "done" else "error")
           (if (upload_track_assets rid ss (track_payloads e.lang langs dEnh)).any
               (fun kv => kv.2.status == "completed") then none
            else some "No language tracks were generated successfully")
           done_extras
           (some (upload_track_assets rid ss (track_payloads e.lang langs dEnh)))] := by
  obtain ⟨hc, hw, ⟨g, hg⟩, ⟨demoDur, hd⟩, hs, ⟨nP, hp⟩, ⟨snaps, hsn⟩, hveo, ⟨sd, hst⟩,
    hcp, hu, hcd⟩ := h
  obtain ⟨⟨k, hk⟩, hlen, hall⟩ := veo_loop_no_fatal e.veo (List.range (min nP 2)) hveo
  by_cases hen : e.veo_enabled = true ∧ nP ≠ 0
  · by_cases hk1 : k ≥ 1
    · refine ⟨(veo_loop e.veo (List.range (min nP 2))).1, nP, sd, hp, hall, ?_, ?_⟩
      · rw [if_pos hen, hlen, List.length_range]
      · unfold run_unified_pipeline pipeline_demo pipeline_script pipeline_snapshots
          pipeline_veo pipeline_stitch pipeline_voice pipeline_finalize
        rw [if_neg (by simp [hc]), if_neg hw]
        simp only [hg, hd, hs, hp, hsn, hu, hcd, if_pos hen, hk, hst, if_pos hk1]
        simp only [List.cons_append, List.append_assoc, List.nil_append]
    · refine ⟨(veo_loop e.veo (List.range (min nP 2))).1, nP, demoDur, hp, hall, ?_, ?_⟩
      · rw [if_pos hen, hlen, List.length_range]
      · unfold run_unified_pipeline pipeline_demo pipeline_script pipeline_snapshots
          pipeline_veo pipeline_stitch pipeline_voice pipeline_finalize
        rw [if_neg (by simp [hc]), if_neg hw]
        simp only [hg, hd, hs, hp, hsn, hu, hcd, if_pos hen, hk, hcp, if_neg hk1]
        simp only [List.cons_append, List.append_assoc, List.nil_append]
  · refine ⟨[], nP, demoDur, hp, by simp, ?_, ?_⟩
    · rw [if_neg hen]
      rfl
    · unfold run_unified_pipeline pipeline_demo pipeline_script pipeline_snapshots
        pipeline_veo pipeline_stitch pipeline_voice pipeline_finalize
      rw [if_neg (by simp [hc]), if_neg hw]
      simp only [hg, hd, hs, hp, hsn, hu, hcd, if_neg hen, hcp]
      simp only [List.cons_append, List.append_assoc, List.nil_append]
      simp [if_neg (by omega : ¬ (0 : Nat) ≥ 1)]

theorem uploaded_any_completed (rid ss : String) (f : String → LangEnv)
    (langs : List String) (d : Nat) :
    ((upload_track_assets rid ss (track_payloads f langs d)).any
      fun kv => kv.2.status == "completed")
      = langs.any fun l => (sub_pipeline_error (f l)).isNone := by
  induction langs with
  | nil => rfl
  | cons l rest ih =>
    simp only [upload_track_assets, track_payloads, List.map_cons, List.any_cons] at *
    rw [← ih]
    congr 1
    cases hse : sub_pipeline_error (f l) with
    | none => simp [language_track_payload, hse, FinalTrack.status]
    | some msg => simp [language_track_payload, hse, failed_track_payload, FinalTrack.status]

theorem filter_persist_all_work (evs : List Ev) (h : ∀ ev ∈ evs, ev = .work "veo" none) :
    evs.filter isPersistEv = [] := by
  induction evs with
  | nil => rfl
  | cons ev rest ih =>
    have hev := h ev (List.mem_cons_self ev rest)
    subst hev
    simp only [List.filter_cons, isPersistEv, Bool.false_eq_true, if_false]
    exact ih fun e he => h e (List.mem_cons_of_mem _ he)

theorem filter_persist_lang_events (le : LangEnv) (l : String) :
    (language_track_events le l).filter isPersistEv = [] := by
  unfold language_track_events
  cases le.narration <;> cases le.tts <;> cases le.captionsWrite <;>
    cases le.mix <;> cases le.burn <;> rfl

theorem filter_persist_flatMap (f : String → LangEnv) (langs : List String) :
    (langs.flatMap fun l => language_track_events (f l) l).filter isPersistEv = [] := by
  induction langs with
  | nil => rfl
  | cons l rest ih =>
    rw [List.flatMap_cons, List.filter_append, filter_persist_lang_events, ih]
    rfl

theorem stages_lang_events (le : LangEnv) (l : String) :
    persist_stages (language_track_events le l) = [] := by
  unfold language_track_events
  cases le.narration <;> cases le.tts <;> cases le.captionsWrite <;>
    cases le.mix <;> cases le.burn <;> rfl

theorem stages_append (xs ys : List Ev) :
    persist_stages (xs ++ ys) = persist_stages xs ++ persist_stages ys :=
  List.filterMap_append xs ys _

theorem stages_flatMap (f : String → LangEnv) (langs : List String) :
    persist_stages (langs.flatMap fun l => language_track_events (f l) l) = [] := by
  induction langs with
  | nil => rfl
  | cons l rest ih =>
    rw [List.flatMap_cons, stages_append, stages_lang_events, ih]
    rfl

theorem stages_all_work (evs : List Ev) (h : ∀ ev ∈ evs, ev = .work "veo" none) :
    persist_stages evs = [] := by
  induction evs with
  | nil => rfl
  | cons ev rest ih =>
    have hev := h ev (List.mem_cons_self ev rest)
    subst hev
    show persist_stages (Ev.work "veo" none :: rest) = []
    unfold persist_stages at *
    rw [List.filterMap_cons]
    exact ih fun e he => h e (List.mem_cons_of_mem _ he)

theorem run_ok_persist_stages (e : PipelineEnv) (rid ss : String) (langs : List String)
    (h : job_level_ok e)
    (hany : (langs.any fun l => (sub_pipeline_error (e.lang l)).isNone) = true) :
    persist_stages (run_unified_pipeline e rid ss langs) = ok_persist_stage_list := by
  obtain ⟨veoEvs, nP, dEnh, hp, hall, hlen, hrun⟩ := run_ok_trace e rid ss langs h
  have hA : ((upload_track_assets rid ss (track_payloads e.lang langs dEnh)).any
      fun kv => kv.2.status == "completed") = true := by
    rw [uploaded_any_completed]; exact hany
  rw [hrun, stages_append, stages_append, stages_append, stages_append,
    stages_all_work veoEvs hall, stages_flatMap, hA]
  simp only [if_true]
  rfl

theorem okPipelineEnv_job_ok : job_level_ok okPipelineEnv := by
  refine ⟨rfl, by decide, ⟨_, rfl⟩, ⟨_, rfl⟩, rfl, ⟨_, rfl⟩, ⟨_, rfl⟩, ?_,
    ⟨_, rfl⟩, rfl, rfl, rfl⟩
  intro i m
  simp [okPipelineEnv, mixedPipelineEnv]

theorem mixedPipelineEnv_job_ok : job_level_ok mixedPipelineEnv := by
  refine ⟨rfl, by decide, ⟨_, rfl⟩, ⟨_, rfl⟩, rfl, ⟨_, rfl⟩, ⟨_, rfl⟩, ?_,
    ⟨_, rfl⟩, rfl, rfl, rfl⟩
  intro i m
  simp [mixedPipelineEnv]

theorem allFailPipelineEnv_job_ok : job_level_ok allFailPipelineEnv := by
  refine ⟨rfl, by decide, ⟨_, rfl⟩, ⟨_, rfl⟩, rfl, ⟨_, rfl⟩, ⟨_, rfl⟩, ?_,
    ⟨_, rfl⟩, rfl, rfl, rfl⟩
  intro i m
  simp [allFailPipelineEnv, mixedPipelineEnv]

/-- Claim C4 (amended): (1) in every execution of `_run_unified_pipeline`,
each collaborator call runs under an already-persisted `running` stage — with
the per-language caption building, mixing and caption burning running under
the `voice` stage entry (no `stage="captions"` persist ever occurs) and the
uploads under `finalize` — and persisted stage transitions never decrease in
the fixed order; (2) a successful run (all job-level calls succeed, at least
one language succeeds) persists exactly the `(status, stage, artifacts)`
sequence goal, demo, script, snapshots, veo (the spec's `clip-generate`),
stitch, voice, finalize, done — each `running` persist carrying the previous
stage's artifacts, written before the stage's work; (3) that sequence is
non-decreasing in the fixed stage order and (4) ends at `done`. -/
theorem pipeline_stage_protocol :
    (∀ (e : PipelineEnv) (rid ss : String) (langs : List String),
      protocol_ok (run_unified_pipeline e rid ss langs) = true) ∧
    (∀ (e : PipelineEnv) (rid ss : String) (langs : List String),
      job_level_ok e →
      (langs.any fun l => (sub_pipeline_error (e.lang l)).isNone) = true →
      persist_stages (run_unified_pipeline e rid ss langs) = ok_persist_stage_list) ∧
    List.Chain'
      (fun a b => (stageIdx a.2.1).isSome = true ∧ (stageIdx b.2.1).isSome = true ∧
        (stageIdx a.2.1).getD 0 ≤ (stageIdx b.2.1).getD 0)
      ok_persist_stage_list ∧
    (ok_persist_stage_list.getLast?.map fun t => (t.1, t.2.1)) =
      some ("completed", "done") := by
  refine ⟨run_protocol_ok, run_ok_persist_stages, ?_, by decide⟩
  simp only [ok_persist_stage_list, List.chain'_cons, List.chain'_singleton, and_true]
  decide

/-- Claim C4 witness: the successful-run stage sequence evaluated on a
concrete all-success environment. -/
theorem pipeline_stage_protocol_witness :
    persist_stages (run_unified_pipeline okPipelineEnv "octo_repo" "abc1234" ["en"]) =
      ok_persist_stage_list :=
  pipeline_stage_protocol.2.1 okPipelineEnv "octo_repo" "abc1234" ["en"]
    okPipelineEnv_job_ok (by decide)

/-- Claim C4 (counterexample): in a fully successful run the captions-stage
work (`build_srt_from_timeline` + the SRT write) executes, yet no persist
with `stage="captions"` occurs anywhere in the trace — so it is false that
every stage the orchestrator executes first persists `status='running'` with
that stage's name before the stage's work runs. -/
theorem captions_work_without_captions_persist :
    Ev.work "captions_build" (some "en") ∈
      run_unified_pipeline okPipelineEnv "octo_repo" "abc1234" ["en"] ∧
    ((run_unified_pipeline okPipelineEnv "octo_repo" "abc1234" ["en"]).filter
      fun ev => match ev with
        | Ev.persist _ s _ _ _ => s == "captions"
        | Ev.work _ _ => false) = [] := by
  constructor
  · decide
  · decide

theorem run_ok_persist_events (e : PipelineEnv) (rid ss : String) (langs : List String)
    (h : job_level_ok e) :
    ∃ dEnh,
      persist_events (run_unified_pipeline e rid ss langs) =
        [Ev.persist "running" "goal" none ["languages_requested"] none,
         Ev.persist "running" "demo" none ["goal"] none,
         Ev.persist "running" "script" none ["demo_video_duration_sec"] none,
         Ev.persist "running" "snapshots" none ["script", "shot_plan"] none,
         Ev.persist "running" "veo" none ["snapshots"] none,
         Ev.persist "running" "stitch" none ["veo_clips_count"] none,
         Ev.persist "running" "voice" none ["enhanced_video_duration_sec"] none,
         Ev.persist "running" "finalize" none [] none,
         Ev.persist
           (if (upload_track_assets rid ss (track_payloads e.lang langs dEnh)).any
               (fun kv => kv.2.status == "completed") then "completed" else "failed")
           (if (upload_track_assets rid ss (track_payloads e.lang langs dEnh)).any
               (fun kv => kv.2.status == "completed") then "done" else "error")
           (if (upload_track_assets rid ss (track_payloads e.lang langs dEnh)).any
               (fun kv => kv.2.status == "completed") then none
            else some "No language tracks were generated successfully")
           done_extras
           (some (upload_track_assets rid ss (track_payloads e.lang langs dEnh)))] := by
  obtain ⟨veoEvs, nP, dEnh, hp, hall, hlen, hrun⟩ := run_ok_trace e rid ss langs h
  refine ⟨dEnh, ?_⟩
  unfold persist_events
  rw [hrun, List.filter_append, List.filter_append, List.filter_append,
    List.filter_append, filter_persist_all_work veoEvs hall, filter_persist_flatMap]
  rfl

/-- Claim C1: at the end of a unified pipeline run that reaches and completes
the finalize stage (the commit and repo resolve and every job-level
collaborator call succeeds), the final persisted state has `status
"completed"` and `stage "done"` if and only if at least one language Track in
the persisted tracks map has status `"completed"`; otherwise `status
"failed"`, `stage "error"` and the non-null synthetic aggregate error message
are persisted, together with the tracks map. -/
theorem final_status_aggregation (e : PipelineEnv) (rid ss : String)
    (langs : List String) (h : job_level_ok e) :
    ∃ dEnh,
      ((∃ kv ∈ upload_track_assets rid ss (track_payloads e.lang langs dEnh),
          kv.2.status = "completed") →
        last_persist (run_unified_pipeline e rid ss langs) =
          some (Ev.persist "completed" "done" none done_extras
            (some (upload_track_assets rid ss (track_payloads e.lang langs dEnh))))) ∧
      (¬(∃ kv ∈ upload_track_assets rid ss (track_payloads e.lang langs dEnh),
          kv.2.status = "completed") →
        last_persist (run_unified_pipeline e rid ss langs) =
          some (Ev.persist "failed" "error"
            (some "No language tracks were generated successfully") done_extras
            (some (upload_track_assets rid ss (track_payloads e.lang langs dEnh))))) := by
  obtain ⟨dEnh, hpe⟩ := run_ok_persist_events e rid ss langs h
  refine ⟨dEnh, ?_, ?_⟩
  · intro hex
    have hA : ((upload_track_assets rid ss (track_payloads e.lang langs dEnh)).any
        fun kv => kv.2.status == "completed") = true := by
      simp only [List.any_eq_true, beq_iff_eq]
      exact hex
    unfold last_persist
    rw [hpe, hA]
    rfl
  · intro hex
    have hA : ((upload_track_assets rid ss (track_payloads e.lang langs dEnh)).any
        fun kv => kv.2.status == "completed") = false := by
      cases hAc : ((upload_track_assets rid ss (track_payloads e.lang langs dEnh)).any
          fun kv => kv.2.status == "completed") with
      | false => rfl
      | true =>
        exfalso
        apply hex
        simpa only [List.any_eq_true, beq_iff_eq] using hAc
    unfold last_persist
    rw [hpe, hA]
    rfl

/-- Claim C1 witness: the aggregation theorem applied to a concrete
environment in which the `es` track fails and the `en` track succeeds. -/
theorem final_status_aggregation_witness :
    ∃ dEnh,
      ((∃ kv ∈ upload_track_assets "octo_repo" "abc1234"
          (track_payloads mixedPipelineEnv.lang ["en", "es"] dEnh),
          kv.2.status = "completed") →
        last_persist (run_unified_pipeline mixedPipelineEnv "octo_repo" "abc1234"
            ["en", "es"]) =
          some (Ev.persist "completed" "done" none done_extras
            (some (upload_track_assets "octo_repo" "abc1234"
              (track_payloads mixedPipelineEnv.lang ["en", "es"] dEnh))))) ∧
      (¬(∃ kv ∈ upload_track_assets "octo_repo" "abc1234"
          (track_payloads mixedPipelineEnv.lang ["en", "es"] dEnh),
          kv.2.status = "completed") →
        last_persist (run_unified_pipeline mixedPipelineEnv "octo_repo" "abc1234"
            ["en", "es"]) =
          some (Ev.persist "failed" "error"
            (some "No language tracks were generated successfully") done_extras
            (some (upload_track_assets "octo_repo" "abc1234"
              (track_payloads mixedPipelineEnv.lang ["en", "es"] dEnh))))) :=
  final_status_aggregation mixedPipelineEnv "octo_repo" "abc1234" ["en", "es"]
    mixedPipelineEnv_job_ok

theorem lookup_map_self {β : Type} (g : String → β) (langs : List String) (x : String)
    (hx : x ∈ langs) :
    (langs.map fun y => (y, g y)).lookup x = some (g x) := by
  induction langs with
  | nil => cases hx
  | cons y rest ih =>
    by_cases hxy : x = y
    · subst hxy
      simp [List.lookup]
    · have hb : (x == y) = false := by simp [hxy]
      simp only [List.map_cons, List.lookup, hb]
      exact ih (by rcases List.mem_cons.mp hx with h | h; exact absurd h hxy; exact h)

theorem lookup_map_congr {β : Type} (g1 g2 : String → β) (langs : List String)
    (x l : String) (hx : x ≠ l) (hg : ∀ y, y ≠ l → g1 y = g2 y) :
    (langs.map fun y => (y, g1 y)).lookup x = (langs.map fun y => (y, g2 y)).lookup x := by
  induction langs with
  | nil => rfl
  | cons y rest ih =>
    by_cases hxy : x = y
    · subst hxy
      simp [List.lookup, hg x hx]
    · have hb : (x == y) = false := by simp [hxy]
      simp only [List.map_cons, List.lookup, hb]
      exact ih

theorem lookup_upload_failed (rid ss : String) (f : String → LangEnv)
    (langs : List String) (l : String) (d : Nat) (msg : String) (hl : l ∈ langs)
    (hf : sub_pipeline_error (f l) = some msg) :
    (upload_track_assets rid ss (track_payloads f langs d)).lookup l =
      some (.passthrough (failed_track_payload msg d)) := by
  induction langs with
  | nil => cases hl
  | cons y rest ih =>
    simp only [track_payloads, upload_track_assets, List.map_cons] at *
    by_cases hly : l = y
    · subst hly
      have hpay : language_track_payload (f l) l d = failed_track_payload msg d := by
        simp [language_track_payload, hf]
      rw [hpay]
      have hne : (failed_track_payload msg d).status ≠ "completed" := by
        simp [failed_track_payload]
      rw [if_pos hne]
      simp [List.lookup]
    · have hb : (l == y) = false := by simp [hly]
      have hrest : l ∈ rest := by
        rcases List.mem_cons.mp hl with h | h
        · exact absurd h hly
        · exact h
      split
      · simp only [List.lookup, hb]
        exact ih hrest
      · simp only [List.lookup, hb]
        exact ih hrest

/-- Claim C2: if a requested language's localization sub-pipeline raises, the
exception is caught and recorded as that language's Track with status
'failed' and a non-null error (carried unchanged through the upload step into
the final tracks map); sibling languages' Tracks are unaffected (each depends
only on its own sub-pipeline outcomes), every requested language still gets
exactly one entry, and the job run is not aborted (the finalize stage is
still entered whatever the per-language outcomes). -/
theorem track_failure_isolated (f : String → LangEnv) (langs : List String)
    (l : String) (d : Nat) (msg : String) (rid ss : String)
    (hl : l ∈ langs) (hf : sub_pipeline_error (f l) = some msg) :
    ((track_payloads f langs d).lookup l = some (failed_track_payload msg d) ∧
     (failed_track_payload msg d).status = "failed" ∧
     (failed_track_payload msg d).error = some msg ∧
     some msg ≠ (none : Option String)) ∧
    (upload_track_assets rid ss (track_payloads f langs d)).lookup l =
      some (.passthrough (failed_track_payload msg d)) ∧
    (∀ f2 : String → LangEnv, (∀ y, y ≠ l → f2 y = f y) → ∀ x, x ≠ l →
      (track_payloads f2 langs d).lookup x = (track_payloads f langs d).lookup x) ∧
    (track_payloads f langs d).length = langs.length ∧
    (∀ e : PipelineEnv, job_level_ok e →
      Ev.persist "running" "finalize" none [] none ∈
        run_unified_pipeline e rid ss langs) := by
  refine ⟨⟨?_, rfl, rfl, by simp⟩, lookup_upload_failed rid ss f langs l d msg hl hf,
    ?_, by simp [track_payloads], ?_⟩
  · have := lookup_map_self (fun y => language_track_payload (f y) y d) langs l hl
    rw [track_payloads, this]
    simp [language_track_payload, hf]
  · intro f2 hg x hx
    exact lookup_map_congr (fun y => language_track_payload (f2 y) y d)
      (fun y => language_track_payload (f y) y d) langs x l hx
      (fun y hy => by simp only [hg y hy])
  · intro e he
    obtain ⟨veoEvs, nP, dEnh, hp, hall, hlen, hrun⟩ := run_ok_trace e rid ss langs he
    rw [hrun]
    simp

/-- Claim C2 witness: the isolation theorem applied to the concrete
environment whose `es` TTS call raises while `en` succeeds. -/
theorem track_failure_isolated_witness :
    (track_payloads mixedPipelineEnv.lang ["en", "es"] 33).lookup "es" =
      some (failed_track_payload "TTS quota exceeded" 33) :=
  (track_failure_isolated mixedPipelineEnv.lang ["en", "es"] "es" 33
    "TTS quota exceeded" "octo_repo" "abc1234" (by simp) rfl).1.1

theorem poll_veo_operation_eq (opDone : Nat → Bool) (timeout i : Nat) :
    poll_veo_operation opDone timeout i =
      if opDone i then .ok i
      else if 10 * i > timeout then
        .error ("Veo generation timed out after " ++ toString timeout ++ "s")
      else poll_veo_operation opDone timeout (i + 1) := by
  rw [poll_veo_operation]

theorem poll_veo_never_done (opDone : Nat → Bool) (timeout : Nat)
    (h : ∀ j, opDone j = false) (i : Nat) :
    poll_veo_operation opDone timeout i =
      .error ("Veo generation timed out after " ++ toString timeout ++ "s") := by
  have key : ∀ m i2, timeout + 10 - 10 * i2 ≤ m →
      poll_veo_operation opDone timeout i2 =
        .error ("Veo generation timed out after " ++ toString timeout ++ "s") := by
    intro m
    induction m with
    | zero =>
      intro i2 hi
      rw [poll_veo_operation_eq, h i2]
      simp only [Bool.false_eq_true, if_false]
      rw [if_pos (by omega)]
    | succ m ih =>
      intro i2 hi
      rw [poll_veo_operation_eq, h i2]
      simp only [Bool.false_eq_true, if_false]
      by_cases ht : 10 * i2 > timeout
      · rw [if_pos ht]
      · rw [if_neg ht]
        exact ih (i2 + 1) (by omega)
  exact key (timeout + 10) i (by omega)

theorem count_work_append (n : String) (xs ys : List Ev) :
    count_work n (xs ++ ys) = count_work n xs + count_work n ys := by
  simp [count_work, List.filter_append]

theorem count_work_veo_lang_events (le : LangEnv) (l : String) :
    count_work "veo" (language_track_events le l) = 0 := by
  unfold language_track_events
  cases le.narration <;> cases le.tts <;> cases le.captionsWrite <;>
    cases le.mix <;> cases le.burn <;> rfl

theorem count_work_veo_flatMap (f : String → LangEnv) (langs : List String) :
    count_work "veo" (langs.flatMap fun l => language_track_events (f l) l) = 0 := by
  induction langs with
  | nil => rfl
  | cons l rest ih =>
    rw [List.flatMap_cons, count_work_append, count_work_veo_lang_events, ih]

theorem count_work_all (evs : List Ev) (h : ∀ ev ∈ evs, ev = .work "veo" none) :
    count_work "veo" evs = evs.length := by
  induction evs with
  | nil => rfl
  | cons ev rest ih =>
    have hev := h ev (List.mem_cons_self ev rest)
    subst hev
    simp only [count_work, List.filter_cons]
    simp only [beq_self_eq_true, if_true, List.length_cons]
    have := ih fun e he => h e (List.mem_cons_of_mem _ he)
    simp only [count_work] at this
    rw [this]

theorem run_veo_work_count (e : PipelineEnv) (rid ss : String) (langs : List String)
    (nPrompts : Nat) (h : job_level_ok e) (hp : e.shot_plan = .ok nPrompts)
    (hen : e.veo_enabled = true) (hn : nPrompts ≠ 0) :
    count_work "veo" (run_unified_pipeline e rid ss langs) = min nPrompts 2 := by
  obtain ⟨veoEvs, nP, dEnh, hp2, hall, hlen, hrun⟩ := run_ok_trace e rid ss langs h
  have hnp : nP = nPrompts := by
    rw [hp] at hp2
    injection hp2 with h2
    exact h2.symm
  subst hnp
  rw [hrun, count_work_append, count_work_append, count_work_append, count_work_append,
    count_work_all veoEvs hall, count_work_veo_flatMap, hlen, if_pos ⟨hen, hn⟩]
  simp [count_work, List.filter]

/-- Claim C8: the clip-generate (`veo`) stage waits on the asynchronous
remote operation via a poll loop bounded by the configurable overall timeout
`PIPELINE_VEO_TIMEOUT_SEC` (default 300 seconds): once the elapsed time
exceeds the timeout the poll loop raises the timeout `GeminiVideoError` and
terminates — if the operation never completes the loop always ends in that
error rather than polling forever — and the attempt is not retried: each of
the (at most two) clip prompts is attempted exactly once per run, whatever
the outcomes. -/
theorem veo_poll_timeout_spec :
    (veo_timeout_sec none = 300 ∧ ∀ n, veo_timeout_sec (some n) = n) ∧
    (∀ (opDone : Nat → Bool) (timeout i : Nat),
      opDone i = false → 10 * i > timeout →
      poll_veo_operation opDone timeout i =
        .error ("Veo generation timed out after " ++ toString timeout ++ "s")) ∧
    (∀ (opDone : Nat → Bool) (timeout : Nat), (∀ j, opDone j = false) →
      poll_veo_operation opDone timeout 0 =
        .error ("Veo generation timed out after " ++ toString timeout ++ "s")) ∧
    (∀ (e : PipelineEnv) (rid ss : String) (langs : List String) (nPrompts : Nat),
      job_level_ok e → e.shot_plan = .ok nPrompts → e.veo_enabled = true →
      nPrompts ≠ 0 →
      count_work "veo" (run_unified_pipeline e rid ss langs) = min nPrompts 2) := by
  refine ⟨⟨rfl, fun n => rfl⟩, ?_, ?_, ?_⟩
  · intro opDone timeout i hdone ht
    rw [poll_veo_operation_eq, hdone]
    simp only [Bool.false_eq_true, if_false]
    rw [if_pos ht]
  · intro opDone timeout h
    exact poll_veo_never_done opDone timeout h 0
  · intro e rid ss langs nPrompts h hp hen hn
    exact run_veo_work_count e rid ss langs nPrompts h hp hen hn

/-- Claim C8 witness: the timeout branch and the one-attempt-per-clip count
evaluated at concrete inputs. -/
theorem veo_poll_timeout_spec_witness :
    poll_veo_operation (fun _ => false) 300 31 =
      .error ("Veo generation timed out after " ++ toString 300 ++ "s") ∧
    count_work "veo" (run_unified_pipeline mixedPipelineEnv "octo_repo" "abc1234"
      ["en", "es"]) = min 2 2 :=
  ⟨veo_poll_timeout_spec.2.1 (fun _ => false) 300 31 rfl (by omega),
   veo_poll_timeout_spec.2.2.2 mixedPipelineEnv "octo_repo" "abc1234" ["en", "es"] 2
     mixedPipelineEnv_job_ok rfl rfl (by omega)⟩
